import Mathlib

/-! Bluetooth stack: LE address manager, GATT client notification registry, btif config.

A shallow embedding of three source files

* `system/gd/hci/le_address_manager.h`
* `system/bta/gatt/bta_gattc_api.cc`
* `system/btif/src/btif_config.c`

followed by theorems about the embedded definitions.

Conventions: pointers used as map keys are natural numbers, C integers are `Nat`/`Int`,
a C function that can fail to return (abort, non-terminating loop) returns `Option`.
-/

namespace Hci

/-! ## Data model of `LeAddressManager` (le_address_manager.h) -/

/-- Enum `LeAddressManager::AddressPolicy`. -/
inductive AddressPolicy where
  | POLICY_NOT_SET
  | USE_PUBLIC_ADDRESS
  | USE_STATIC_ADDRESS
  | USE_NON_RESOLVABLE_ADDRESS
  | USE_RESOLVABLE_ADDRESS
  deriving DecidableEq, Repr

/-- Enum `LeAddressManager::ClientState`; enumerators are numbered from zero in this order. -/
inductive ClientState where
  | WAITING_FOR_PAUSE
  | PAUSED
  | WAITING_FOR_RESUME
  | RESUMED
  deriving DecidableEq, Repr

/-- The conversion `static_cast<int>(state)` of a `ClientState`. -/
def ClientState.toInt : ClientState → Int
  | .WAITING_FOR_PAUSE => 0
  | .PAUSED => 1
  | .WAITING_FOR_RESUME => 2
  | .RESUMED => 3

/-- Enum `LeAddressManager::CommandType` (logging only). -/
inductive CommandType where
  | ROTATE_RANDOM_ADDRESS
  | ADD_DEVICE_TO_CONNECT_LIST
  | REMOVE_DEVICE_FROM_CONNECT_LIST
  | CLEAR_CONNECT_LIST
  | ADD_DEVICE_TO_RESOLVING_LIST
  | REMOVE_DEVICE_FROM_RESOLVING_LIST
  | CLEAR_RESOLVING_LIST
  | SET_ADDRESS_RESOLUTION_ENABLE
  | LE_SET_PRIVACY_MODE
  | UPDATE_IRK
  deriving DecidableEq, Repr

/-- The variant `std::variant<RotateRandomAddressCommand, UpdateIRKCommand, HCICommand>`.
An `HCICommand` owns a command builder, kept here as its serialized bytes. -/
inductive CommandContents where
  | RotateRandomAddressCommand
  | UpdateIRKCommand (rotation_irk : List Nat) (minimum_rotation_time maximum_rotation_time : Int)
  | HCICommand (command : List Nat)
  deriving DecidableEq, Repr

/-- Struct `LeAddressManager::Command`. -/
structure Command where
  command_type : CommandType
  contents : CommandContents
  deriving DecidableEq, Repr

/-- Modelled from the spec: the type tag of an `AddressWithType` (`hci/address_with_type.h`
is not among the sources): public, random-static, random-resolvable, random-non-resolvable. -/
inductive AddressType where
  | PUBLIC
  | RANDOM_STATIC
  | RANDOM_RESOLVABLE
  | RANDOM_NON_RESOLVABLE
  deriving DecidableEq, Repr

/-- Modelled from the spec: an `AddressWithType` (`hci/address_with_type.h` is not among the
sources) is a 6-byte address, kept as a 48-bit number, plus its type tag. -/
structure AddressWithType where
  address : Nat
  address_type : AddressType
  deriving DecidableEq, Repr

/-- The data members of `LeAddressManager`. `registered_clients_` is the `std::map` from
callback pointer to `ClientState`, listed in its iteration (key) order; the alarm is kept as
the delay it is armed with, if any; `cached_commands_` is the queue, front first. -/
structure LeAddressManager where
  address_policy_ : AddressPolicy := AddressPolicy.POLICY_NOT_SET
  minimum_rotation_time_ : Int := 0
  maximum_rotation_time_ : Int := 0
  registered_clients_ : List (Nat × ClientState) := []
  le_address_ : AddressWithType := ⟨0, AddressType.PUBLIC⟩
  cached_address_ : AddressWithType := ⟨0, AddressType.PUBLIC⟩
  public_address_ : Nat := 0
  address_rotation_alarm_ : Option Int := none
  rotation_irk_ : List Nat := []
  connect_list_size_ : Nat := 0
  resolving_list_size_ : Nat := 0
  cached_commands_ : List Command := []
  supports_ble_privacy_ : Bool := false
  deriving DecidableEq, Repr

/-- Inline member `NumberCachedCommands`. -/
def NumberCachedCommands (m : LeAddressManager) : Nat :=
  m.cached_commands_.length

/-- Inline member `GetRegisteredClientStates`: the vector is constructed with
`registered_clients_.size()` value-initialized elements (the sized constructor of
`std::vector<int>`), and then one element per client is appended with `push_back`. -/
def GetRegisteredClientStates (m : LeAddressManager) : List Int :=
  let client_states : List Int := List.replicate m.registered_clients_.length 0
  m.registered_clients_.foldl (fun acc client => acc ++ [client.2.toInt]) client_states

/-- Inline member `GetAddressPolicy() const`. -/
def GetAddressPolicy (m : LeAddressManager) : AddressPolicy :=
  m.address_policy_

/-! ## Behaviour of `LeAddressManager` whose bodies are in `le_address_manager.cc`

The header declares these members; their bodies are not among the sources. Each definition
below follows the specification text and says so. -/

/-- Modelled from the spec: `GetInitiatorAddress` (body in le_address_manager.cc) returns the
currently programmed address `le_address_`. -/
def GetInitiatorAddress (m : LeAddressManager) : AddressWithType :=
  m.le_address_

/-- Modelled from the spec: `SetPrivacyPolicyForInitiatorAddress` (body in
le_address_manager.cc) is a one-time initializer. It fails fatally, `none`, when the policy
has been set before. With `USE_RESOLVABLE_ADDRESS` it schedules the first rotation
immediately (delay 0); otherwise it sets `le_address_` and `cached_address_` from
`fixed_address`. -/
def SetPrivacyPolicyForInitiatorAddress (m : LeAddressManager) (address_policy : AddressPolicy)
    (fixed_address : AddressWithType) (rotation_irk : List Nat) (supports_ble_privacy : Bool)
    (minimum_rotation_time maximum_rotation_time : Int) : Option LeAddressManager :=
  if m.address_policy_ ≠ AddressPolicy.POLICY_NOT_SET then none
  else if address_policy = AddressPolicy.USE_RESOLVABLE_ADDRESS then
    some { m with
      address_policy_ := address_policy
      supports_ble_privacy_ := supports_ble_privacy
      rotation_irk_ := rotation_irk
      minimum_rotation_time_ := minimum_rotation_time
      maximum_rotation_time_ := maximum_rotation_time
      address_rotation_alarm_ := some 0 }
  else
    some { m with
      address_policy_ := address_policy
      supports_ble_privacy_ := supports_ble_privacy
      le_address_ := fixed_address
      cached_address_ := fixed_address }

/-- Modelled from the spec: `GetNextPrivateAddressIntervalMs` (body in le_address_manager.cc)
returns a value drawn from the closed interval
`[minimum_rotation_time_, maximum_rotation_time_]`, re-drawn on every call. `random` is the
number the random source yields for this call; it is reduced onto the interval. -/
def GetNextPrivateAddressIntervalMs (m : LeAddressManager) (random : Nat) : Int :=
  m.minimum_rotation_time_
    + (random : Int) % (m.maximum_rotation_time_ - m.minimum_rotation_time_ + 1)

/-- Modelled from the spec: `NewResolvableAddress` (body in le_address_manager.cc) returns an
address freshly derived from `rotation_irk_` by `generate_rpa`, with no caching and without
mutating the manager. The pair is the returned address and the manager after the call.
`generate_rpa` (the address derivation, from the key and a random seed) is a parameter. -/
def NewResolvableAddress (generate_rpa : List Nat → Nat → Nat) (m : LeAddressManager)
    (random : Nat) : AddressWithType × LeAddressManager :=
  (⟨generate_rpa m.rotation_irk_ random, AddressType.RANDOM_RESOLVABLE⟩, m)

/-- Modelled from the spec: `NewNonResolvableAddress` (body in le_address_manager.cc) returns
an address freshly derived from the random source by `generate_nrpa`, with no caching and
without mutating the manager. The pair is the returned address and the manager after the
call. -/
def NewNonResolvableAddress (generate_nrpa : Nat → Nat) (m : LeAddressManager)
    (random : Nat) : AddressWithType × LeAddressManager :=
  (⟨generate_nrpa random, AddressType.RANDOM_NON_RESOLVABLE⟩, m)

/-- What the Command Channel observes, in time order: a command submitted to it (recorded
with the states of the registered clients at that moment) and a completion delivered by it
(with whether the status is a success). -/
inductive ChannelEvent where
  | submit (command : Command) (client_states : List ClientState)
  | complete (command : Command) (success : Bool)
  deriving DecidableEq, Repr

/-- The manager together with the Command Channel it drives: the command currently
outstanding on the channel, if any, and the history of the channel. -/
structure Dispatcher where
  manager : LeAddressManager := {}
  outstanding : Option Command := none
  channel : List ChannelEvent := []
  deriving DecidableEq, Repr

/-- Insertion into the `std::map` of clients: the entry goes at its place in key order, and
an existing key keeps its value. -/
def map_insert (callback : Nat) (state : ClientState) :
    List (Nat × ClientState) → List (Nat × ClientState)
  | [] => [(callback, state)]
  | (k, v) :: rest =>
    if callback < k then (callback, state) :: (k, v) :: rest
    else if callback = k then (k, v) :: rest
    else (k, v) :: map_insert callback state rest

/-- Lookup in the `std::map` of clients. -/
def map_find (callback : Nat) (clients : List (Nat × ClientState)) : Option ClientState :=
  (clients.find? (fun client => client.1 == callback)).map (fun client => client.2)

/-- Removal of a key from the `std::map` of clients. -/
def map_erase (callback : Nat) (clients : List (Nat × ClientState)) :
    List (Nat × ClientState) :=
  clients.filter (fun client => client.1 != callback)

/-- The states of the registered clients, in key order. -/
def client_states (m : LeAddressManager) : List ClientState :=
  m.registered_clients_.map (fun client => client.2)

/-- Modelled from the spec: `pause_registered_clients` (body in le_address_manager.cc)
transitions every client to `WAITING_FOR_PAUSE` (and invokes its `OnPause`). -/
def pause_registered_clients (m : LeAddressManager) : LeAddressManager :=
  { m with registered_clients_ :=
      m.registered_clients_.map (fun client => (client.1, ClientState.WAITING_FOR_PAUSE)) }

/-- Modelled from the spec: `resume_registered_clients` (body in le_address_manager.cc)
transitions every client `PAUSED → WAITING_FOR_RESUME` (and invokes its `OnResume`). -/
def resume_registered_clients (m : LeAddressManager) : LeAddressManager :=
  { m with registered_clients_ :=
      m.registered_clients_.map (fun client =>
        if client.2 = ClientState.PAUSED then (client.1, ClientState.WAITING_FOR_RESUME)
        else client) }

/-- Modelled from the spec: `handle_next_command` (body in le_address_manager.cc) pops the
head of `cached_commands_` and submits it to the Command Channel. Dispatch is gated on no
client being `WAITING_FOR_PAUSE`, and the channel takes one command at a time, so nothing is
submitted while a command is outstanding. -/
def handle_next_command (d : Dispatcher) : Dispatcher :=
  if ClientState.WAITING_FOR_PAUSE ∈ client_states d.manager then d
  else if d.outstanding.isSome then d
  else
    match d.manager.cached_commands_ with
    | [] => d
    | command :: rest =>
      { manager := { d.manager with cached_commands_ := rest }
        outstanding := some command
        channel := d.channel ++ [ChannelEvent.submit command (client_states d.manager)] }

/-- Modelled from the spec: `check_cached_commands` (body in le_address_manager.cc) is
invoked whenever a client finishes a pause/resume transition that might unblock dispatch;
it dispatches the next queued command, if there is one. -/
def check_cached_commands (d : Dispatcher) : Dispatcher :=
  if d.manager.cached_commands_.isEmpty then d else handle_next_command d

/-- Modelled from the spec: `push_command` (body in le_address_manager.cc), the common path
of the rotation request and of every allow-list and resolving-list edit: it pauses the
registered clients and enqueues exactly one command at the back of the queue; with no client
left to wait for, the command is dispatched. -/
def push_command (command : Command) (d : Dispatcher) : Dispatcher :=
  let m := pause_registered_clients d.manager
  check_cached_commands
    { d with manager := { m with cached_commands_ := m.cached_commands_ ++ [command] } }

/-- Modelled from the spec: `Register` (body in le_address_manager.cc) adds the client in
state `RESUMED`; registering a null callback (pointer 0) is fatal, `none`. -/
def Register (callback : Nat) (d : Dispatcher) : Option Dispatcher :=
  if callback = 0 then none
  else
    some { d with manager := { d.manager with
      registered_clients_ :=
        map_insert callback ClientState.RESUMED d.manager.registered_clients_ } }

/-- Modelled from the spec: `Unregister` (body in le_address_manager.cc) removes the entry of
the client; a client that was blocking a barrier counts as having acknowledged, so dispatch
is checked again. -/
def Unregister (callback : Nat) (d : Dispatcher) : Dispatcher :=
  check_cached_commands { d with manager := { d.manager with
    registered_clients_ := map_erase callback d.manager.registered_clients_ } }

/-- Modelled from the spec: `AckPause` (body in le_address_manager.cc) is the client-driven
transition `WAITING_FOR_PAUSE → PAUSED`, a no-op in any other state, after which the manager
proceeds with the queued commands; for an unregistered client it is fatal, `none`. -/
def AckPause (callback : Nat) (d : Dispatcher) : Option Dispatcher :=
  match map_find callback d.manager.registered_clients_ with
  | none => none
  | some _ =>
    some (check_cached_commands { d with manager := { d.manager with
      registered_clients_ := d.manager.registered_clients_.map (fun client =>
        if client.1 = callback ∧ client.2 = ClientState.WAITING_FOR_PAUSE
        then (client.1, ClientState.PAUSED) else client) } })

/-- Modelled from the spec: `AckResume` (body in le_address_manager.cc) is the client-driven
transition `WAITING_FOR_RESUME → RESUMED`, a no-op in any other state; for an unregistered
client it is fatal, `none`. -/
def AckResume (callback : Nat) (d : Dispatcher) : Option Dispatcher :=
  match map_find callback d.manager.registered_clients_ with
  | none => none
  | some _ =>
    some (check_cached_commands { d with manager := { d.manager with
      registered_clients_ := d.manager.registered_clients_.map (fun client =>
        if client.1 = callback ∧ client.2 = ClientState.WAITING_FOR_RESUME
        then (client.1, ClientState.RESUMED) else client) } })

/-- Modelled from the spec: `on_command_complete` (body in le_address_manager.cc). The
channel delivers the completion of the outstanding command (`none` when there is none: the
channel completes only what was submitted). A successful "set random address" makes
`cached_address_` the programmed address; a rejection is only logged. Then the queue
continues regardless of the status: the next command is popped if the queue is non-empty,
otherwise the clients are resumed. -/
def on_command_complete (success : Bool) (d : Dispatcher) : Option Dispatcher :=
  match d.outstanding with
  | none => none
  | some command =>
    let m : LeAddressManager :=
      if success ∧ command.contents = CommandContents.RotateRandomAddressCommand
      then { d.manager with le_address_ := d.manager.cached_address_ }
      else d.manager
    let d1 : Dispatcher :=
      { manager := m
        outstanding := none
        channel := d.channel ++ [ChannelEvent.complete command success] }
    if m.cached_commands_.isEmpty then
      some { d1 with manager := resume_registered_clients m }
    else some (handle_next_command d1)

/-- What can happen to the manager: the public calls of the pause/resume protocol, a request
that enqueues a command (a rotation or a list edit), and a completion from the channel. -/
inductive Request where
  | Register (callback : Nat)
  | Unregister (callback : Nat)
  | AckPause (callback : Nat)
  | AckResume (callback : Nat)
  | Enqueue (command : Command)
  | CommandComplete (success : Bool)
  deriving DecidableEq, Repr

/-- One request handled on the single execution context; `none` is a fatal error. -/
def step (d : Dispatcher) : Request → Option Dispatcher
  | .Register callback => Register callback d
  | .Unregister callback => some (Unregister callback d)
  | .AckPause callback => AckPause callback d
  | .AckResume callback => AckResume callback d
  | .Enqueue command => some (push_command command d)
  | .CommandComplete success => on_command_complete success d

/-- A sequence of requests handled one after the other. -/
def run (d : Dispatcher) : List Request → Option Dispatcher
  | [] => some d
  | request :: rest =>
    match step d request with
    | none => none
    | some d1 => run d1 rest

/-- The commands a sequence of requests enqueues, in order. -/
def enqueued : List Request → List Command
  | [] => []
  | .Enqueue command :: rest => command :: enqueued rest
  | _ :: rest => enqueued rest

/-- The commands submitted to the channel, in order. -/
def submitted : List ChannelEvent → List Command
  | [] => []
  | .submit command _ :: rest => command :: submitted rest
  | .complete _ _ :: rest => submitted rest

/-- Replays a channel history from a given outstanding command: a submission is accepted
only while nothing is outstanding, a completion only for the outstanding command. The
result is the command outstanding at the end, or `none` if the history breaks the
one-command-at-a-time discipline. -/
def channel_replay : List ChannelEvent → Option Command → Option (Option Command)
  | [], o => some o
  | .submit command _ :: rest, none => channel_replay rest (some command)
  | .submit _ _ :: _, some _ => none
  | .complete command _ :: rest, some o =>
    if command = o then channel_replay rest none else none
  | .complete _ _ :: _, none => none

/-! ## Properties of channel histories -/

/-- Every submission in a channel history was made while no client was waiting for pause. -/
def SubmitsUnblocked (history : List ChannelEvent) : Prop :=
  ∀ command states, ChannelEvent.submit command states ∈ history →
    ClientState.WAITING_FOR_PAUSE ∉ states

/-- The invariant of the dispatcher relative to the commands enqueued so far: the channel
history respects one command at a time and ends with the recorded outstanding command;
the submitted commands followed by the queued ones are the enqueued ones; and no command
waits in the queue while the gate is open and the channel is idle. -/
def DispatchInv (d : Dispatcher) (enq : List Command) : Prop :=
  channel_replay d.channel none = some d.outstanding
  ∧ submitted d.channel ++ d.manager.cached_commands_ = enq
  ∧ (ClientState.WAITING_FOR_PAUSE ∉ client_states d.manager → d.outstanding = none →
      d.manager.cached_commands_ = [])

end Hci

namespace BtaGattc

/-! ## GATT client notification registrations (bta_gattc_api.cc) -/

/-- Modelled from the spec: the length in bytes of a Bluetooth device address (`BD_ADDR_LEN`,
defined in bt_types.h, which is not among the sources); the address is a 6-byte address. -/
def BD_ADDR_LEN : Nat := 6

/-- A `BD_ADDR`: an array of bytes. -/
abbrev BD_ADDR := List Nat

/-- The C library `memcmp` on the first `n` bytes; only whether the result is zero is
observed by the code. -/
def memcmp (a b : List Nat) (n : Nat) : Int :=
  if a.take n = b.take n then 0 else 1

/-- The C library `memcpy` of the first `n` bytes of `src` over those of `dst`. -/
def memcpy (dst src : List Nat) (n : Nat) : List Nat :=
  src.take n ++ dst.drop n

/-- The status codes of `tBTA_GATT_STATUS` that the two functions return (distinct
constants). -/
inductive tBTA_GATT_STATUS where
  | BTA_GATT_OK
  | BTA_GATT_ILLEGAL_PARAMETER
  | BTA_GATT_NO_RESOURCES
  | BTA_GATT_ERROR
  deriving DecidableEq, Repr

/-- Struct `tBTA_GATTC_NOTIF_REG`: one slot of a client notification table, with the fields
the code reads and writes. -/
structure tBTA_GATTC_NOTIF_REG where
  in_use : Bool
  remote_bda : BD_ADDR
  handle : Nat
  deriving DecidableEq, Repr

/-- The slot after `memset(&slot, 0, sizeof(tBTA_GATTC_NOTIF_REG))`. -/
def notif_reg_zero : tBTA_GATTC_NOTIF_REG :=
  { in_use := false, remote_bda := List.replicate BD_ADDR_LEN 0, handle := 0 }

/-- Struct `tBTA_GATTC_RCB`: a client registration control block with its notification
table `notif_reg`. -/
structure tBTA_GATTC_RCB where
  in_use : Bool
  client_if : Nat
  notif_reg : List tBTA_GATTC_NOTIF_REG
  deriving DecidableEq, Repr

/-- The control block `bta_gattc_cb`, reduced to its array of client registration control
blocks. -/
structure tBTA_GATTC_CB where
  cl_rcb : List tBTA_GATTC_RCB
  deriving DecidableEq, Repr

/-- The notification table of the control block at index `p`. -/
def notif_reg_of (cb : tBTA_GATTC_CB) (p : Nat) : List tBTA_GATTC_NOTIF_REG :=
  match cb.cl_rcb[p]? with
  | some rcb => rcb.notif_reg
  | none => []

/-- The test both functions make on a slot:
`in_use && !memcmp(remote_bda, bda, BD_ADDR_LEN) && handle == handle`. -/
def slot_matches (slot : tBTA_GATTC_NOTIF_REG) (bda : BD_ADDR) (handle : Nat) : Bool :=
  slot.in_use && (memcmp slot.remote_bda bda BD_ADDR_LEN == 0) && (slot.handle == handle)

/-- A slot holds the registration `(bda, handle)`: it is in use, its address bytes are those
of `bda`, and its handle is `handle`. -/
def Holds (slot : tBTA_GATTC_NOTIF_REG) (bda : BD_ADDR) (handle : Nat) : Prop :=
  slot.in_use = true ∧ slot.remote_bda.take BD_ADDR_LEN = bda.take BD_ADDR_LEN
    ∧ slot.handle = handle

/-- The first loop of `BTA_GATTC_RegisterForNotifications`, from counter value `i`, with the
`uint8_t` counter incremented modulo 256. The result is `status` after the loop; `none` when
the fuel runs out (256 evaluations of the loop condition without leaving the loop mean the
counter has cycled and the loop never ends). -/
def register_match_loop (BTA_GATTC_NOTIF_REG_MAX : Nat) (notif_reg : List tBTA_GATTC_NOTIF_REG)
    (bda : BD_ADDR) (handle : Nat) (status : tBTA_GATT_STATUS) :
    Nat → Nat → Option tBTA_GATT_STATUS
  | 0, _ => none
  | fuel + 1, i =>
    if i < BTA_GATTC_NOTIF_REG_MAX then
      if slot_matches (notif_reg.getD i notif_reg_zero) bda handle then
        some tBTA_GATT_STATUS.BTA_GATT_OK
      else
        register_match_loop BTA_GATTC_NOTIF_REG_MAX notif_reg bda handle status fuel
          ((i + 1) % 256)
    else some status

/-- The second loop of `BTA_GATTC_RegisterForNotifications`, from counter value `i`: the
first slot not in use is zeroed, marked in use and given the address and the handle. The
result is the final counter, the table and `status`; `none` when the loop never ends. -/
def register_free_loop (BTA_GATTC_NOTIF_REG_MAX : Nat) (notif_reg : List tBTA_GATTC_NOTIF_REG)
    (bda : BD_ADDR) (handle : Nat) (status : tBTA_GATT_STATUS) :
    Nat → Nat → Option (Nat × List tBTA_GATTC_NOTIF_REG × tBTA_GATT_STATUS)
  | 0, _ => none
  | fuel + 1, i =>
    if i < BTA_GATTC_NOTIF_REG_MAX then
      if !(notif_reg.getD i notif_reg_zero).in_use then
        some (i,
          notif_reg.set i
            { notif_reg_zero with
              in_use := true
              remote_bda := memcpy notif_reg_zero.remote_bda bda BD_ADDR_LEN
              handle := handle },
          tBTA_GATT_STATUS.BTA_GATT_OK)
      else
        register_free_loop BTA_GATTC_NOTIF_REG_MAX notif_reg bda handle status fuel
          ((i + 1) % 256)
    else some (i, notif_reg, status)

/-- Function `BTA_GATTC_RegisterForNotifications`. The helper `bta_gattc_cl_get_regcb`
(bta_gattc_utils.cc) and the constant `BTA_GATTC_NOTIF_REG_MAX` (bta_gattc_int.h) are
parameters; the helper yields `none` for `NULL` and otherwise the position of the control
block it points to. The result is the returned status and the control block afterwards;
`none` when the call does not return. -/
def BTA_GATTC_RegisterForNotifications
    (bta_gattc_cl_get_regcb : (cb : tBTA_GATTC_CB) → Nat → Option (Fin cb.cl_rcb.length))
    (BTA_GATTC_NOTIF_REG_MAX : Nat) (cb : tBTA_GATTC_CB) (client_if : Nat) (bda : BD_ADDR)
    (handle : Nat) : Option (tBTA_GATT_STATUS × tBTA_GATTC_CB) :=
  let status := tBTA_GATT_STATUS.BTA_GATT_ILLEGAL_PARAMETER
  if handle = 0 then some (status, cb)
  else
    match bta_gattc_cl_get_regcb cb client_if with
    | some p_clreg =>
      let rcb := cb.cl_rcb.get p_clreg
      match register_match_loop BTA_GATTC_NOTIF_REG_MAX rcb.notif_reg bda handle status 256 0 with
      | none => none
      | some status =>
        if status ≠ tBTA_GATT_STATUS.BTA_GATT_OK then
          match register_free_loop BTA_GATTC_NOTIF_REG_MAX rcb.notif_reg bda handle status
              256 0 with
          | none => none
          | some (i, notif_reg, status) =>
            let status :=
              if i = BTA_GATTC_NOTIF_REG_MAX then tBTA_GATT_STATUS.BTA_GATT_NO_RESOURCES
              else status
            some (status,
              { cb with cl_rcb := cb.cl_rcb.set p_clreg { rcb with notif_reg := notif_reg } })
        else some (status, cb)
    | none => some (status, cb)

/-- The loop of `BTA_GATTC_DeregisterForNotifications`, from counter value `i` (an `int`
that never exceeds the bound): the first matching slot is zeroed and the function returns
`BTA_GATT_OK`; leaving the loop, it returns `BTA_GATT_ERROR`. `none` when the fuel runs
out. -/
def deregister_loop (BTA_GATTC_NOTIF_REG_MAX : Nat) (notif_reg : List tBTA_GATTC_NOTIF_REG)
    (bda : BD_ADDR) (handle : Nat) :
    Nat → Nat → Option (tBTA_GATT_STATUS × List tBTA_GATTC_NOTIF_REG)
  | 0, _ => none
  | fuel + 1, i =>
    if i < BTA_GATTC_NOTIF_REG_MAX then
      if slot_matches (notif_reg.getD i notif_reg_zero) bda handle then
        some (tBTA_GATT_STATUS.BTA_GATT_OK, notif_reg.set i notif_reg_zero)
      else deregister_loop BTA_GATTC_NOTIF_REG_MAX notif_reg bda handle fuel (i + 1)
    else some (tBTA_GATT_STATUS.BTA_GATT_ERROR, notif_reg)

/-- Function `BTA_GATTC_DeregisterForNotifications`, with the same parameters and result as
`BTA_GATTC_RegisterForNotifications`. -/
def BTA_GATTC_DeregisterForNotifications
    (bta_gattc_cl_get_regcb : (cb : tBTA_GATTC_CB) → Nat → Option (Fin cb.cl_rcb.length))
    (BTA_GATTC_NOTIF_REG_MAX : Nat) (cb : tBTA_GATTC_CB) (client_if : Nat) (bda : BD_ADDR)
    (handle : Nat) : Option (tBTA_GATT_STATUS × tBTA_GATTC_CB) :=
  if handle = 0 then some (tBTA_GATT_STATUS.BTA_GATT_ILLEGAL_PARAMETER, cb)
  else
    match bta_gattc_cl_get_regcb cb client_if with
    | none => some (tBTA_GATT_STATUS.BTA_GATT_ILLEGAL_PARAMETER, cb)
    | some p_clreg =>
      let rcb := cb.cl_rcb.get p_clreg
      match deregister_loop BTA_GATTC_NOTIF_REG_MAX rcb.notif_reg bda handle
          (BTA_GATTC_NOTIF_REG_MAX + 1) 0 with
      | none => none
      | some (status, notif_reg) =>
        some (status,
          { cb with cl_rcb := cb.cl_rcb.set p_clreg { rcb with notif_reg := notif_reg } })

/-- A lookup of the kind `bta_gattc_cl_get_regcb` performs, used to try the functions on
concrete control blocks: the first control block in use with the given `client_if`. -/
def get_regcb_by_client_if (cb : tBTA_GATTC_CB) (client_if : Nat) :
    Option (Fin cb.cl_rcb.length) :=
  List.find? (fun p => (cb.cl_rcb.get p).in_use && ((cb.cl_rcb.get p).client_if == client_if))
    (List.finRange cb.cl_rcb.length)

end BtaGattc

namespace BtifConfig

/-! ## Integer lookup of the config module (btif_config.c) -/

/-- Function `btif_config_get_int`. The store functions `config_has_key` and
`config_get_int` (osi config module) are parameters, as is the type of the config object.
`value` is the content of `*value` on entry; the result is the return value and the content
of `*value` on return. -/
def btif_config_get_int {config_t : Type}
    (config_has_key : config_t → String → String → Bool)
    (config_get_int : config_t → String → String → Int → Int)
    (config : config_t) (sec key : String) (value : Int) : Bool × Int :=
  let ret := config_has_key config sec key
  if ret then (ret, config_get_int config sec key value) else (ret, value)

end BtifConfig

namespace BtifConfig

/-! ## Binary lookup of the config module (btif_config.c)

A C string is kept as a `String`: its characters, the terminator left out. -/

/-- The C library `isxdigit` in the C locale, on a character code: `0-9`, `A-F`, `a-f`. -/
def isxdigit (c : Char) : Bool :=
  (48 ≤ c.toNat && c.toNat ≤ 57) || (65 ≤ c.toNat && c.toNat ≤ 70)
    || (97 ≤ c.toNat && c.toNat ≤ 102)

/-- The value of a hexadecimal digit. -/
def hex_value (c : Char) : Nat :=
  if 48 ≤ c.toNat ∧ c.toNat ≤ 57 then c.toNat - 48
  else if 65 ≤ c.toNat ∧ c.toNat ≤ 70 then c.toNat - 55
  else c.toNat - 87

/-- The call `sscanf(value_str, "%02hhx", &byte)` on the two characters at `value_str`, both
of them hexadecimal digits when the call is reached: at most two characters are read and
the byte they spell is stored. -/
def sscanf_02hhx (c0 c1 : Char) : Nat :=
  (16 * hex_value c0 + hex_value c1) % 256

/-- The loop `for (i = 0; i < value_len; ++i) if (!isxdigit(value_str[i])) return false;`:
`true` when the loop runs to its end. -/
def all_isxdigit : List Char → Bool
  | [] => true
  | c :: rest => if !isxdigit c then false else all_isxdigit rest

/-- The loop `for (*length = 0; *value_str; value_str += 2, *length += 1)
sscanf(value_str, "%02hhx", &value[*length]);` from the current position of `value_str`,
with the buffer `value` and the current `*length`. `none` when `value_str += 2` steps over
the terminator (one character left). -/
def decode_loop : List Char → List Nat → Nat → Option (List Nat × Nat)
  | [], value, length => some (value, length)
  | [_], _, _ => none
  | c0 :: c1 :: rest, value, length =>
    decode_loop rest (value.set length (sscanf_02hhx c0 c1)) (length + 1)

/-- Function `btif_config_get_bin`. The store function `config_get_string` (osi config
module), with its default-value argument, is a parameter; `none` is `NULL`. `value` is the
output buffer and `length` the content of `*length` on entry; the result is the return
value, the buffer and `*length` on return, or `none` when the call does not return
normally. -/
def btif_config_get_bin {config_t : Type}
    (config_get_string : config_t → String → String → Option String → Option String)
    (config : config_t) (sec key : String) (value : List Nat) (length : Nat) :
    Option (Bool × List Nat × Nat) :=
  match config_get_string config sec key none with
  | none => some (false, value, length)
  | some value_str =>
    let value_len := value_str.length
    if value_len % 2 ≠ 0 ∨ length < value_len / 2 then some (false, value, length)
    else if all_isxdigit value_str.data = false then some (false, value, length)
    else
      match decode_loop value_str.data value 0 with
      | none => none
      | some (value1, length1) => some (true, value1, length1)

end BtifConfig

namespace BtifConfig

/-! ## The config store and the device-cache cleanup (btif_config.c)

The store itself (osi config module) is not part of the embedded files. -/

/-- Modelled from the spec: an entry of the config store (osi config module), a key with its
value. -/
structure entry_t where
  key : String
  value : String
  deriving DecidableEq, Repr

/-- Modelled from the spec: a section of the config store (osi config module), a name with
its entries. -/
structure section_t where
  name : String
  entries : List entry_t
  deriving DecidableEq, Repr

/-- Modelled from the spec: the config object of the store (osi config module), the list of
its sections in iteration order. The store is keyed: a section is looked up by its name. -/
structure config_t where
  sections : List section_t
  deriving DecidableEq, Repr

/-- Modelled from the spec: the keyed lookup of a section of the store (osi config module):
the first section with the given name. -/
def section_find (config : config_t) (sec : String) : Option section_t :=
  config.sections.find? (fun s => s.name == sec)

/-- Whether a section holds an entry with the given key. -/
def section_has_key (s : section_t) (key : String) : Bool :=
  s.entries.any (fun e => e.key == key)

/-- Modelled from the spec: `config_has_key` of the store (osi config module): the section
looked up by name holds an entry with the key. -/
def config_has_key (config : config_t) (sec key : String) : Bool :=
  match section_find config sec with
  | none => false
  | some s => section_has_key s key

/-- Modelled from the spec: `config_remove_section` of the store (osi config module): the
section looked up by name is taken out of the list. -/
def config_remove_section (config : config_t) (sec : String) : config_t :=
  { sections := config.sections.eraseP (fun s => s.name == sec) }

/-- The well-formedness the store maintains: one section per name. -/
def config_wf (config : config_t) : Prop :=
  (config.sections.map (fun s => s.name)).Nodup

/-- Whether a config has one section per name can be checked. -/
instance config_wf_decidable (config : config_t) : Decidable (config_wf config) := by
  unfold config_wf
  infer_instance

/-- The test of `btif_config_devcache_cleanup` on the keys of a bonded device, on the
section looked up by the name `sec`: none of the six keys is present. -/
def no_bond_key (config : config_t) (sec : String) : Bool :=
  !config_has_key config sec "LinkKey" &&
  !config_has_key config sec "LE_KEY_PENC" &&
  !config_has_key config sec "LE_KEY_PID" &&
  !config_has_key config sec "LE_KEY_PCSRK" &&
  !config_has_key config sec "LE_KEY_LENC" &&
  !config_has_key config sec "LE_KEY_LCSRK"

/-- A section contains at least one of the six keys of a bonded device. -/
def has_bond_key (s : section_t) : Bool :=
  section_has_key s "LinkKey" || section_has_key s "LE_KEY_PENC"
    || section_has_key s "LE_KEY_PID" || section_has_key s "LE_KEY_PCSRK"
    || section_has_key s "LE_KEY_LENC" || section_has_key s "LE_KEY_LCSRK"

/-- The `while` loop of `btif_config_devcache_cleanup`. The list of the config is
`before ++ after`, and `snode` points at the first node of `after` (at
`config_section_end` when `after` is empty). `string_is_bdaddr` (btcore) is a parameter and
so is the bound `ADDRS_MAX`. When a section is removed `snode` has already moved to the next
node; it keeps pointing at that node, so the nodes from it to the end are the same and the
part of the new list in front of them is the new `before`. -/
def devcache_cleanup_loop (string_is_bdaddr : String → Bool) (ADDRS_MAX : Nat) :
    List section_t → List section_t → Nat → config_t
  | [], before, _ => { sections := before }
  | snode :: rest, before, total_addrs =>
    let config : config_t := { sections := before ++ snode :: rest }
    let sec := snode.name
    if string_is_bdaddr sec then
      let total_addrs := total_addrs + 1
      if total_addrs > ADDRS_MAX && no_bond_key config sec then
        let config1 := config_remove_section config sec
        devcache_cleanup_loop string_is_bdaddr ADDRS_MAX rest
          (config1.sections.take (config1.sections.length - rest.length)) total_addrs
      else
        devcache_cleanup_loop string_is_bdaddr ADDRS_MAX rest (before ++ [snode]) total_addrs
    else
      devcache_cleanup_loop string_is_bdaddr ADDRS_MAX rest (before ++ [snode]) total_addrs

/-- Function `btif_config_devcache_cleanup`, with `ADDRS_MAX = 512`: the loop from
`config_section_begin` with `total_addrs = 0`. The result is the config afterwards. -/
def btif_config_devcache_cleanup (string_is_bdaddr : String → Bool) (config : config_t) :
    config_t :=
  devcache_cleanup_loop string_is_bdaddr 512 config.sections [] 0

/-- The sections a cleanup pass keeps out of a list, given the number of address-named
sections met before it: a section not named like an address stays; an address-named one
stays while the count, it included, is at most `ADDRS_MAX`, or when it has a bonding key. -/
def kept_sections (string_is_bdaddr : String → Bool) (ADDRS_MAX : Nat) :
    List section_t → Nat → List section_t
  | [], _ => []
  | s :: rest, total_addrs =>
    if string_is_bdaddr s.name then
      if total_addrs + 1 > ADDRS_MAX && !has_bond_key s then
        kept_sections string_is_bdaddr ADDRS_MAX rest (total_addrs + 1)
      else s :: kept_sections string_is_bdaddr ADDRS_MAX rest (total_addrs + 1)
    else s :: kept_sections string_is_bdaddr ADDRS_MAX rest total_addrs

/-- The cleanup as the claim words it: the section list filtered to the sections that are
not named like a Bluetooth address, or are among the first `ADDRS_MAX` address-named
sections in iteration order, or contain one of the six bonding keys. -/
def devcache_cleanup_filter (string_is_bdaddr : String → Bool) (ADDRS_MAX : Nat)
    (sections : List section_t) : List section_t :=
  sections.filter (fun s =>
    !string_is_bdaddr s.name
      || decide (s ∈ (sections.filter (fun a => string_is_bdaddr a.name)).take ADDRS_MAX)
      || has_bond_key s)

end BtifConfig

namespace BtifConfig

/-- A stand-in for `string_is_bdaddr` (btcore) to try the cleanup on concrete configs: 17
characters, every third one a colon, the others hexadecimal digits. -/
def sample_is_bdaddr (s : String) : Bool :=
  s.length == 17 &&
    (List.range 17).all (fun i =>
      if (i + 1) % 3 == 0 then s.data.getD i (Char.ofNat 0) == Char.ofNat 58
      else isxdigit (s.data.getD i (Char.ofNat 0)))

end BtifConfig

namespace BtifConfig

/-! ## The lock of the config module (btif_config.c)

Each public function is followed through its calls on the mutex `lock` and its accesses to
the shared `config` object: the calls into the store that take `config` or one of its nodes,
and the reads of a string the store owns. What the calls compute is left out here. -/

/-- The state of the mutex `lock`, and the accesses to the shared config object made so far
while it was not held, in program order. -/
structure lock_state where
  held : Bool
  unguarded : List String
  deriving DecidableEq, Repr

/-- The call `pthread_mutex_lock(&lock)`. -/
def pthread_mutex_lock (s : lock_state) : lock_state :=
  { s with held := true }

/-- The call `pthread_mutex_unlock(&lock)`. -/
def pthread_mutex_unlock (s : lock_state) : lock_state :=
  { s with held := false }

/-- An access to the shared config object, named by the store function called or by the
variable read: recorded when the lock is not held. -/
def config_access (what : String) (s : lock_state) : lock_state :=
  if s.held then s else { s with unguarded := s.unguarded ++ [what] }

/-- The lock and config accesses of `btif_config_has_section`. -/
def btif_config_has_section_locking (s : lock_state) : lock_state :=
  pthread_mutex_unlock (config_access "config_has_section" (pthread_mutex_lock s))

/-- The lock and config accesses of `btif_config_exist`. -/
def btif_config_exist_locking (s : lock_state) : lock_state :=
  pthread_mutex_unlock (config_access "config_has_key" (pthread_mutex_lock s))

/-- The lock and config accesses of `btif_config_get_int`; `ret` is what `config_has_key`
returns. -/
def btif_config_get_int_locking (ret : Bool) (s : lock_state) : lock_state :=
  let s1 := config_access "config_has_key" (pthread_mutex_lock s)
  let s2 := if ret then config_access "config_get_int" s1 else s1
  pthread_mutex_unlock s2

/-- The lock and config accesses of `btif_config_set_int`. -/
def btif_config_set_int_locking (s : lock_state) : lock_state :=
  pthread_mutex_unlock (config_access "config_set_int" (pthread_mutex_lock s))

/-- The lock and config accesses of `btif_config_get_str`; `found` says whether
`config_get_string` returned a stored string, which `strlcpy` then reads. -/
def btif_config_get_str_locking (found : Bool) (s : lock_state) : lock_state :=
  let s1 := pthread_mutex_unlock (config_access "config_get_string" (pthread_mutex_lock s))
  if !found then s1 else config_access "stored_value" s1

/-- The lock and config accesses of `btif_config_set_str`. -/
def btif_config_set_str_locking (s : lock_state) : lock_state :=
  pthread_mutex_unlock (config_access "config_set_string" (pthread_mutex_lock s))

/-- The lock and config accesses of `btif_config_get_bin`; `found` says whether
`config_get_string` returned a stored string, which `strlen` then reads. -/
def btif_config_get_bin_locking (found : Bool) (s : lock_state) : lock_state :=
  let s1 := pthread_mutex_unlock (config_access "config_get_string" (pthread_mutex_lock s))
  if !found then s1 else config_access "value_str" s1

/-- The lock and config accesses of `btif_config_get_bin_length`; `found` as for
`btif_config_get_bin`. -/
def btif_config_get_bin_length_locking (found : Bool) (s : lock_state) : lock_state :=
  let s1 := pthread_mutex_unlock (config_access "config_get_string" (pthread_mutex_lock s))
  if !found then s1 else config_access "value_str" s1

/-- The lock and config accesses of `btif_config_set_bin`. -/
def btif_config_set_bin_locking (s : lock_state) : lock_state :=
  pthread_mutex_unlock (config_access "config_set_string" (pthread_mutex_lock s))

/-- The lock and config accesses of `btif_config_section_begin`. -/
def btif_config_section_begin_locking (s : lock_state) : lock_state :=
  config_access "config_section_begin" s

/-- The lock and config accesses of `btif_config_section_end`. -/
def btif_config_section_end_locking (s : lock_state) : lock_state :=
  config_access "config_section_end" s

/-- The lock and config accesses of `btif_config_section_next`. -/
def btif_config_section_next_locking (s : lock_state) : lock_state :=
  config_access "config_section_next" s

/-- The lock and config accesses of `btif_config_section_name`. -/
def btif_config_section_name_locking (s : lock_state) : lock_state :=
  config_access "config_section_name" s

/-- The lock and config accesses of `btif_config_remove`. -/
def btif_config_remove_locking (s : lock_state) : lock_state :=
  pthread_mutex_unlock (config_access "config_remove_key" (pthread_mutex_lock s))

/-- The lock and config accesses of `btif_config_save`: it only sets the alarm. -/
def btif_config_save_locking (s : lock_state) : lock_state :=
  s

/-- The lock and config accesses of `btif_config_devcache_cleanup`: the whole loop runs
between the lock and the unlock. -/
def btif_config_devcache_cleanup_locking (s : lock_state) : lock_state :=
  pthread_mutex_unlock (config_access "config_section_begin ... config_remove_section"
    (pthread_mutex_lock s))

/-- The lock and config accesses of `btif_config_write`. -/
def btif_config_write_locking (s : lock_state) : lock_state :=
  pthread_mutex_unlock (config_access "config_save"
    (pthread_mutex_lock (btif_config_devcache_cleanup_locking s)))

/-- The lock and config accesses of `btif_config_flush`. -/
def btif_config_flush_locking (s : lock_state) : lock_state :=
  btif_config_write_locking s

/-- The lock and config accesses of `btif_config_clear`; `allocated` says whether
`config_new_empty` returned a config. -/
def btif_config_clear_locking (allocated : Bool) (s : lock_state) : lock_state :=
  let s1 := config_access "config_new_empty" (config_access "config_free" (pthread_mutex_lock s))
  if !allocated then pthread_mutex_unlock s1
  else pthread_mutex_unlock (config_access "config_save" s1)

/-! ## Debounced writes of the config module (btif_config.c) -/

/-- Constant `CONFIG_SETTLE_PERIOD_MS`. -/
def CONFIG_SETTLE_PERIOD_MS : Nat := 3000

/-- The callbacks the module hands to its alarm. -/
inductive alarm_callback_t where
  | timer_config_save_cb
  deriving DecidableEq, Repr

/-- Modelled from the spec: an alarm of the timer facility (osi alarm module), a one-shot,
cancelable timer: either idle, or pending with the time it fires at and its callback. -/
structure alarm_t where
  pending : Option (Nat × alarm_callback_t)
  deriving DecidableEq, Repr

/-- Modelled from the spec: `alarm_set` of the timer facility (osi alarm module), called at
time `now`: the alarm is set to fire `period` ms from now; an alarm already pending is set
anew. -/
def alarm_set (_alarm : alarm_t) (now period : Nat) (cb : alarm_callback_t) : alarm_t :=
  { pending := some (now + period, cb) }

/-- Modelled from the spec: `alarm_cancel` of the timer facility (osi alarm module). -/
def alarm_cancel (_alarm : alarm_t) : alarm_t :=
  { pending := none }

/-- The module state: the globals `config` and `alarm_timer`, the files at
`CONFIG_FILE_PATH` and `CONFIG_BACKUP_PATH` (`none` when absent), and the configs handed to
`config_save` so far. -/
structure btif_config_state where
  config : config_t
  alarm_timer : alarm_t
  file : Option config_t
  backup : Option config_t
  saved : List config_t
  deriving DecidableEq, Repr

/-- Function `btif_config_save`, called at time `now`. -/
def btif_config_save (now : Nat) (st : btif_config_state) : btif_config_state :=
  { st with alarm_timer :=
      alarm_set st.alarm_timer now CONFIG_SETTLE_PERIOD_MS alarm_callback_t.timer_config_save_cb }

/-- Function `btif_config_write`: the cleanup, then the rename of the file to the backup,
then `config_save` to the file. -/
def btif_config_write (string_is_bdaddr : String → Bool) (st : btif_config_state) :
    btif_config_state :=
  let config := btif_config_devcache_cleanup string_is_bdaddr st.config
  { st with
    config := config
    backup := if st.file.isSome then st.file else st.backup
    file := some config
    saved := st.saved ++ [config] }

/-- Function `timer_config_save_cb`. -/
def timer_config_save_cb (string_is_bdaddr : String → Bool) (st : btif_config_state) :
    btif_config_state :=
  btif_config_write string_is_bdaddr st

/-- Function `btif_config_flush`. -/
def btif_config_flush (string_is_bdaddr : String → Bool) (st : btif_config_state) :
    btif_config_state :=
  btif_config_write string_is_bdaddr { st with alarm_timer := alarm_cancel st.alarm_timer }

/-- The expiry of the pending alarm: it is no longer pending and its callback runs. With no
alarm pending nothing happens. -/
def alarm_expire (string_is_bdaddr : String → Bool) (st : btif_config_state) :
    btif_config_state :=
  match st.alarm_timer.pending with
  | none => st
  | some (_, alarm_callback_t.timer_config_save_cb) =>
    timer_config_save_cb string_is_bdaddr { st with alarm_timer := { pending := none } }

/-- A sequence of calls of `btif_config_save` at the given times, with no expiry in
between. -/
def btif_config_save_calls (times : List Nat) (st : btif_config_state) : btif_config_state :=
  times.foldl (fun s now => btif_config_save now s) st

end BtifConfig

namespace BtaGattc

/-! ## Messages posted by the GATT client API (bta_gattc_api.cc) -/

/-- Struct `BT_HDR`, the header of a message. -/
structure BT_HDR where
  event : Nat
  len : Nat
  offset : Nat
  layer_specific : Nat
  deriving DecidableEq, Repr

/-- Struct `tBT_UUID`: the length of the UUID and its bytes. -/
structure tBT_UUID where
  len : Nat
  uu : List Nat
  deriving DecidableEq, Repr

/-- Struct `tBTA_GATTC_API_SEARCH`, the service search message. The buffer of the message
is allocated with room for a `tBT_UUID` behind the struct; `p_srvc_uuid` is `none` for
`NULL`, and otherwise holds the content of that room, to which the pointer points. -/
structure tBTA_GATTC_API_SEARCH where
  hdr : BT_HDR
  p_srvc_uuid : Option tBT_UUID
  deriving DecidableEq, Repr

/-- A message handed to `bta_sys_sendmsg` by the two functions below. -/
inductive bta_msg where
  | hdr (p_buf : BT_HDR)
  | search (p_buf : tBTA_GATTC_API_SEARCH)
  deriving DecidableEq, Repr

/-- Function `BTA_GATTC_ServiceSearchRequest`. The system manager, with its state of type
`sys` and its function `bta_sys_sendmsg`, is a parameter, and so is the event code
`BTA_GATTC_API_SEARCH_EVT`. The buffer comes zeroed from `osi_calloc`. The result is the
state of the system manager afterwards. -/
def BTA_GATTC_ServiceSearchRequest {sys : Type} (bta_sys_sendmsg : sys → bta_msg → sys)
    (BTA_GATTC_API_SEARCH_EVT : Nat) (s : sys) (conn_id : Nat) (p_srvc_uuid : Option tBT_UUID) :
    sys :=
  let p_buf : tBTA_GATTC_API_SEARCH := { hdr := ⟨0, 0, 0, 0⟩, p_srvc_uuid := none }
  let p_buf := { p_buf with hdr := { p_buf.hdr with event := BTA_GATTC_API_SEARCH_EVT } }
  let p_buf := { p_buf with hdr := { p_buf.hdr with layer_specific := conn_id } }
  let p_buf :=
    match p_srvc_uuid with
    | some uuid => { p_buf with p_srvc_uuid := some uuid }
    | none => { p_buf with p_srvc_uuid := none }
  bta_sys_sendmsg s (bta_msg.search p_buf)

/-- Function `BTA_GATTC_Disable`. The system manager, with `bta_sys_is_register`,
`bta_sys_sendmsg` and `bta_sys_deregister`, is a parameter, and so are the module id
`BTA_ID_GATTC` and the event code `BTA_GATTC_API_DISABLE_EVT`. `fresh` is the content of the
buffer as it comes from `osi_malloc`, which does not clear it. -/
def BTA_GATTC_Disable {sys : Type} (bta_sys_is_register : sys → Nat → Bool)
    (bta_sys_sendmsg : sys → bta_msg → sys) (bta_sys_deregister : sys → Nat → sys)
    (BTA_ID_GATTC BTA_GATTC_API_DISABLE_EVT : Nat) (fresh : BT_HDR) (s : sys) : sys :=
  if bta_sys_is_register s BTA_ID_GATTC = false then s
  else
    let p_buf : BT_HDR := { fresh with event := BTA_GATTC_API_DISABLE_EVT }
    let s1 := bta_sys_sendmsg s (bta_msg.hdr p_buf)
    bta_sys_deregister s1 BTA_ID_GATTC

/-- A system manager to try the functions on: the ids of the registered modules and the
messages posted, oldest first. -/
structure sample_sys where
  registered : List Nat
  mbox : List bta_msg
  deriving DecidableEq, Repr

/-- Whether a module is registered with the sample system manager. -/
def sample_is_register (s : sample_sys) (id : Nat) : Bool :=
  s.registered.contains id

/-- Posting a message to the sample system manager. -/
def sample_sendmsg (s : sample_sys) (msg : bta_msg) : sample_sys :=
  { s with mbox := s.mbox ++ [msg] }

/-- Deregistering a module from the sample system manager. -/
def sample_deregister (s : sample_sys) (id : Nat) : sample_sys :=
  { s with registered := s.registered.filter (fun r => r != id) }

end BtaGattc

/-! # Theorems -/

namespace Hci

/-- The loop of `GetRegisteredClientStates` appends the states, in order, to what the vector
already holds. -/
theorem foldl_push_back (cs : List (Nat × ClientState)) (init : List Int) :
    cs.foldl (fun acc client => acc ++ [client.2.toInt]) init
      = init ++ cs.map (fun client => client.2.toInt) := by
  induction cs generalizing init with
  | nil => simp
  | cons c rest ih => simp [List.foldl_cons, ih]

/-- The shape of the snapshot: as many zeros as there are clients, then the states. -/
theorem GetRegisteredClientStates_shape (m : LeAddressManager) :
    GetRegisteredClientStates m
      = List.replicate m.registered_clients_.length 0
          ++ m.registered_clients_.map (fun client => client.2.toInt) := by
  simp [GetRegisteredClientStates, foldl_push_back]

/-- C1 (evaluated at the failing input): with one registered client, in state `RESUMED`,
`GetRegisteredClientStates` returns the two integers `0, 3` and not the single integer `3`;
in general it returns twice as many integers as there are clients. -/
theorem C1_GetRegisteredClientStates_one_client :
    GetRegisteredClientStates { registered_clients_ := [(1, ClientState.RESUMED)] } = [0, 3]
    ∧ (GetRegisteredClientStates { registered_clients_ := [(1, ClientState.RESUMED)] }).length ≠ 1
    ∧ ∀ m : LeAddressManager,
        (GetRegisteredClientStates m).length = 2 * m.registered_clients_.length := by
  refine ⟨by decide, by decide, ?_⟩
  intro m
  simp only [GetRegisteredClientStates, foldl_push_back, List.length_append,
    List.length_replicate, List.length_map]
  omega

end Hci

namespace Hci

/-! ## The dispatch gate (C2) -/

theorem handle_next_command_unblocked (d : Dispatcher) (h : SubmitsUnblocked d.channel) :
    SubmitsUnblocked (handle_next_command d).channel := by
  unfold handle_next_command
  by_cases hw : ClientState.WAITING_FOR_PAUSE ∈ client_states d.manager
  · simpa [hw] using h
  · by_cases ho : d.outstanding.isSome = true
    · simpa [hw, ho] using h
    · cases hq : d.manager.cached_commands_ with
      | nil => simpa [hw, ho, hq] using h
      | cons command rest =>
        simp only [hw, ho, hq, if_false]
        intro c states hmem
        rcases List.mem_append.mp hmem with hold | hnew
        · exact h c states hold
        · simp only [List.mem_singleton, ChannelEvent.submit.injEq] at hnew
          rw [hnew.2]
          exact hw

theorem check_cached_commands_unblocked (d : Dispatcher) (h : SubmitsUnblocked d.channel) :
    SubmitsUnblocked (check_cached_commands d).channel := by
  unfold check_cached_commands
  split
  · exact h
  · exact handle_next_command_unblocked d h

theorem step_unblocked (d d1 : Dispatcher) (request : Request)
    (h : SubmitsUnblocked d.channel) (hs : step d request = some d1) :
    SubmitsUnblocked d1.channel := by
  cases request with
  | Register callback =>
    simp only [step, Register] at hs
    split at hs
    · exact absurd hs (by simp)
    · cases hs
      exact h
  | Unregister callback =>
    simp only [step, Unregister, Option.some.injEq] at hs
    subst hs
    exact check_cached_commands_unblocked _ h
  | AckPause callback =>
    simp only [step, AckPause] at hs
    split at hs
    · exact absurd hs (by simp)
    · cases hs
      exact check_cached_commands_unblocked _ h
  | AckResume callback =>
    simp only [step, AckResume] at hs
    split at hs
    · exact absurd hs (by simp)
    · cases hs
      exact check_cached_commands_unblocked _ h
  | Enqueue command =>
    simp only [step, push_command, Option.some.injEq] at hs
    subst hs
    exact check_cached_commands_unblocked _ h
  | CommandComplete success =>
    simp only [step, on_command_complete] at hs
    split at hs
    · exact absurd hs (by simp)
    · rename_i command hout
      have hd1 : SubmitsUnblocked (d.channel ++ [ChannelEvent.complete command success]) := by
        intro c states hmem
        rcases List.mem_append.mp hmem with hold | hnew
        · exact h c states hold
        · simp at hnew
      split_ifs at hs <;> simp only [Option.some.injEq] at hs <;> subst hs <;>
        first
          | exact hd1
          | exact handle_next_command_unblocked _ hd1

/-- C2: for every sequence of `Register`, `Unregister`, `AckPause`, `AckResume`, enqueue
(rotation or list-edit) requests and completions handled without a fatal error, starting
from a history in which every submission was made with no client waiting for pause, every
command submitted to the Command Channel was submitted while zero registered clients were
in state `WAITING_FOR_PAUSE`. -/
theorem C2_submit_only_when_no_client_waiting_for_pause (d0 d : Dispatcher)
    (requests : List Request) (h0 : SubmitsUnblocked d0.channel)
    (hrun : run d0 requests = some d) :
    ∀ command states, ChannelEvent.submit command states ∈ d.channel →
      ClientState.WAITING_FOR_PAUSE ∉ states := by
  induction requests generalizing d0 with
  | nil =>
    simp only [run, Option.some.injEq] at hrun
    subst hrun
    exact h0
  | cons request rest ih =>
    simp only [run] at hrun
    cases hstep : step d0 request with
    | none => simp [hstep] at hrun
    | some d1 =>
      simp only [hstep] at hrun
      exact ih d1 (step_unblocked d0 d1 request h0 hstep) hrun

end Hci

namespace Hci

/-! ## FIFO dispatch with one outstanding command (C4) -/

theorem channel_replay_append (history : List ChannelEvent) (event : ChannelEvent)
    (o : Option Command) :
    channel_replay (history ++ [event]) o
      = (channel_replay history o).bind (fun o1 => channel_replay [event] o1) := by
  induction history generalizing o with
  | nil => simp [channel_replay]
  | cons e rest ih =>
    cases e with
    | submit command states =>
      cases o with
      | none => simpa [channel_replay] using ih (some command)
      | some c => simp [channel_replay]
    | complete command success =>
      cases o with
      | none => simp [channel_replay]
      | some c =>
        by_cases hc : command = c
        · simpa [channel_replay, hc] using ih none
        · simp [channel_replay, hc]

theorem submitted_append (h1 h2 : List ChannelEvent) :
    submitted (h1 ++ h2) = submitted h1 ++ submitted h2 := by
  induction h1 with
  | nil => simp [submitted]
  | cons e rest ih => cases e <;> simp [submitted, ih]

theorem enqueued_cons (request : Request) (rest : List Request) :
    enqueued (request :: rest) = enqueued [request] ++ enqueued rest := by
  cases request <;> simp [enqueued]

theorem handle_next_command_inv (d : Dispatcher) (enq : List Command)
    (ha : channel_replay d.channel none = some d.outstanding)
    (hb : submitted d.channel ++ d.manager.cached_commands_ = enq) :
    DispatchInv (handle_next_command d) enq := by
  unfold handle_next_command
  by_cases hw : ClientState.WAITING_FOR_PAUSE ∈ client_states d.manager
  · simp only [hw, if_true]
    exact ⟨ha, hb, fun h => absurd hw h⟩
  · cases hout : d.outstanding with
    | some c =>
      simp only [hw, hout, Option.isSome_some, if_true, if_false]
      exact ⟨by rw [ha, hout], hb, fun _ h => by simp [hout] at h⟩
    | none =>
      cases hq : d.manager.cached_commands_ with
      | nil =>
        simp only [hw, hout, hq, Option.isSome_none, Bool.false_eq_true, if_false]
        exact ⟨by rw [ha, hout], hb, fun _ _ => hq⟩
      | cons command rest =>
        simp only [hw, hout, hq, Option.isSome_none, Bool.false_eq_true, if_false]
        refine ⟨?_, ?_, ?_⟩
        · rw [channel_replay_append, ha, hout]
          simp [channel_replay]
        · rw [submitted_append]
          rw [hq] at hb
          simpa [submitted] using hb
        · intro _ h
          simp at h

theorem check_cached_commands_inv (d : Dispatcher) (enq : List Command)
    (ha : channel_replay d.channel none = some d.outstanding)
    (hb : submitted d.channel ++ d.manager.cached_commands_ = enq) :
    DispatchInv (check_cached_commands d) enq := by
  unfold check_cached_commands
  split
  · rename_i hemp
    exact ⟨ha, hb, fun _ _ => List.isEmpty_iff.mp hemp⟩
  · exact handle_next_command_inv d enq ha hb

theorem mem_map_insert (callback : Nat) (state : ClientState)
    (clients : List (Nat × ClientState)) (x : Nat × ClientState) (hx : x ∈ clients) :
    x ∈ map_insert callback state clients := by
  induction clients with
  | nil => simp at hx
  | cons c rest ih =>
    obtain ⟨k, v⟩ := c
    simp only [map_insert]
    split_ifs
    · exact List.mem_cons_of_mem _ hx
    · exact hx
    · rcases List.mem_cons.mp hx with h | h
      · rw [h]
        exact List.mem_cons_self _ _
      · exact List.mem_cons_of_mem _ (ih h)

theorem step_inv (d d1 : Dispatcher) (request : Request) (enq : List Command)
    (h : DispatchInv d enq) (hs : step d request = some d1) :
    DispatchInv d1 (enq ++ enqueued [request]) := by
  obtain ⟨ha, hb, hc⟩ := h
  cases request with
  | Register callback =>
    simp only [step, Register] at hs
    split at hs
    · exact absurd hs (by simp)
    · cases hs
      refine ⟨ha, by simpa [enqueued] using hb, ?_⟩
      intro hw hout
      apply hc _ hout
      intro hmem
      apply hw
      simp only [client_states, List.mem_map] at hmem ⊢
      obtain ⟨x, hx, hx2⟩ := hmem
      exact ⟨x, mem_map_insert _ _ _ x hx, hx2⟩
  | Unregister callback =>
    simp only [step, Unregister, Option.some.injEq] at hs
    subst hs
    exact check_cached_commands_inv _ _ ha (by simpa [enqueued] using hb)
  | AckPause callback =>
    simp only [step, AckPause] at hs
    split at hs
    · exact absurd hs (by simp)
    · cases hs
      exact check_cached_commands_inv _ _ ha (by simpa [enqueued] using hb)
  | AckResume callback =>
    simp only [step, AckResume] at hs
    split at hs
    · exact absurd hs (by simp)
    · cases hs
      exact check_cached_commands_inv _ _ ha (by simpa [enqueued] using hb)
  | Enqueue command =>
    simp only [step, push_command, Option.some.injEq] at hs
    subst hs
    refine check_cached_commands_inv _ _ ?_ ?_
    · exact ha
    · simp only [pause_registered_clients, enqueued]
      rw [← hb, List.append_assoc]
  | CommandComplete success =>
    simp only [step, on_command_complete] at hs
    cases hout : d.outstanding with
    | none => simp [hout] at hs
    | some command =>
      simp only [hout] at hs
      have ha1 : channel_replay (d.channel ++ [ChannelEvent.complete command success]) none
          = some none := by
        rw [channel_replay_append, ha, hout]
        simp [channel_replay]
      have hb1 : submitted (d.channel ++ [ChannelEvent.complete command success])
          ++ d.manager.cached_commands_ = enq ++ enqueued [Request.CommandComplete success] := by
        rw [submitted_append]
        simpa [submitted, enqueued] using hb
      split_ifs at hs with h1 h2 h2 <;> simp only [Option.some.injEq] at hs <;> subst hs
      · exact ⟨ha1, hb1, fun _ _ => List.isEmpty_iff.mp h2⟩
      · exact handle_next_command_inv _ _ ha1 hb1
      · exact ⟨ha1, hb1, fun _ _ => List.isEmpty_iff.mp h2⟩
      · exact handle_next_command_inv _ _ ha1 hb1

theorem run_inv (d d1 : Dispatcher) (requests : List Request) (enq : List Command)
    (h : DispatchInv d enq) (hrun : run d requests = some d1) :
    DispatchInv d1 (enq ++ enqueued requests) := by
  induction requests generalizing d enq with
  | nil =>
    simp only [run, Option.some.injEq] at hrun
    subst hrun
    simpa [enqueued] using h
  | cons request rest ih =>
    simp only [run] at hrun
    cases hstep : step d request with
    | none => simp [hstep] at hrun
    | some d2 =>
      simp only [hstep] at hrun
      have := ih d2 (enq ++ enqueued [request]) (step_inv d d2 request enq h hstep) hrun
      rw [enqueued_cons, ← List.append_assoc]
      exact this

/-- C4: starting with an idle channel, an empty history and an empty queue, after every
sequence of requests handled without a fatal error (completions may report success or
failure): the channel history respects one outstanding command at a time, every submission
being preceded by the completion of the previous one; the commands submitted so far followed
by the commands still queued are exactly the commands enqueued, in enqueue order (strict
FIFO, none dropped); and a command stays in the queue only while a client is waiting for
pause or a command is outstanding. -/
theorem C4_fifo_one_outstanding (d0 d : Dispatcher) (requests : List Request)
    (hchannel : d0.channel = []) (hidle : d0.outstanding = none)
    (hqueue : d0.manager.cached_commands_ = []) (hrun : run d0 requests = some d) :
    channel_replay d.channel none = some d.outstanding
    ∧ submitted d.channel ++ d.manager.cached_commands_ = enqueued requests
    ∧ (ClientState.WAITING_FOR_PAUSE ∉ client_states d.manager → d.outstanding = none →
        d.manager.cached_commands_ = []) := by
  have h0 : DispatchInv d0 [] := by
    refine ⟨?_, ?_, fun _ _ => hqueue⟩
    · rw [hchannel, hidle]
      rfl
    · rw [hchannel, hqueue]
      rfl
  simpa [DispatchInv] using run_inv d0 d requests [] h0 hrun

end Hci

namespace Hci

/-- Witness for C2: two clients register, a list edit is enqueued, both clients acknowledge
the pause; the command is then submitted with both clients `PAUSED`. -/
theorem C2_submit_only_when_no_client_waiting_for_pause_witness :
    ChannelEvent.submit ⟨CommandType.CLEAR_CONNECT_LIST, CommandContents.HCICommand [1]⟩
        [ClientState.PAUSED, ClientState.PAUSED]
      ∈ ({ manager := { registered_clients_ := [(1, ClientState.PAUSED), (2, ClientState.PAUSED)] }
           outstanding := some ⟨CommandType.CLEAR_CONNECT_LIST, CommandContents.HCICommand [1]⟩
           channel := [ChannelEvent.submit
             ⟨CommandType.CLEAR_CONNECT_LIST, CommandContents.HCICommand [1]⟩
             [ClientState.PAUSED, ClientState.PAUSED]] } : Dispatcher).channel
    ∧ ClientState.WAITING_FOR_PAUSE ∉ [ClientState.PAUSED, ClientState.PAUSED] :=
  ⟨by decide,
   C2_submit_only_when_no_client_waiting_for_pause {}
     { manager := { registered_clients_ := [(1, ClientState.PAUSED), (2, ClientState.PAUSED)] }
       outstanding := some ⟨CommandType.CLEAR_CONNECT_LIST, CommandContents.HCICommand [1]⟩
       channel := [ChannelEvent.submit
         ⟨CommandType.CLEAR_CONNECT_LIST, CommandContents.HCICommand [1]⟩
         [ClientState.PAUSED, ClientState.PAUSED]] }
     [Request.Register 1, Request.Register 2,
      Request.Enqueue ⟨CommandType.CLEAR_CONNECT_LIST, CommandContents.HCICommand [1]⟩,
      Request.AckPause 1, Request.AckPause 2]
     (by intro c states hmem; simp at hmem) (by decide)
     ⟨CommandType.CLEAR_CONNECT_LIST, CommandContents.HCICommand [1]⟩
     [ClientState.PAUSED, ClientState.PAUSED] (by decide)⟩

/-- C3: on a manager whose address policy is no longer `POLICY_NOT_SET`, a call of
`SetPrivacyPolicyForInitiatorAddress` with any arguments fails fatally; no manager state
with a changed policy or changed addresses results. -/
theorem C3_SetPrivacyPolicy_twice_aborts (m : LeAddressManager) (address_policy : AddressPolicy)
    (fixed_address : AddressWithType) (rotation_irk : List Nat) (supports_ble_privacy : Bool)
    (minimum_rotation_time maximum_rotation_time : Int)
    (h : m.address_policy_ ≠ AddressPolicy.POLICY_NOT_SET) :
    SetPrivacyPolicyForInitiatorAddress m address_policy fixed_address rotation_irk
      supports_ble_privacy minimum_rotation_time maximum_rotation_time = none := by
  simp [SetPrivacyPolicyForInitiatorAddress, h]

/-- Witness for C3: the first call on a fresh manager succeeds and sets the policy; a second
call on the resulting manager aborts. -/
theorem C3_SetPrivacyPolicy_twice_aborts_witness :
    SetPrivacyPolicyForInitiatorAddress {} AddressPolicy.USE_STATIC_ADDRESS
        ⟨5, AddressType.RANDOM_STATIC⟩ [] true 1000 2000
      = some { address_policy_ := AddressPolicy.USE_STATIC_ADDRESS
               le_address_ := ⟨5, AddressType.RANDOM_STATIC⟩
               cached_address_ := ⟨5, AddressType.RANDOM_STATIC⟩
               supports_ble_privacy_ := true }
    ∧ SetPrivacyPolicyForInitiatorAddress
        { address_policy_ := AddressPolicy.USE_STATIC_ADDRESS
          le_address_ := ⟨5, AddressType.RANDOM_STATIC⟩
          cached_address_ := ⟨5, AddressType.RANDOM_STATIC⟩
          supports_ble_privacy_ := true }
        AddressPolicy.USE_RESOLVABLE_ADDRESS ⟨7, AddressType.PUBLIC⟩ [1] false 0 10 = none :=
  ⟨by decide, C3_SetPrivacyPolicy_twice_aborts _ _ _ _ _ _ _ (by decide)⟩

/-- Witness for C4: with no client registered, commands A, B, C are enqueued in that order;
A is submitted at once, its completion reports failure, then B is submitted, completes, and
C is submitted: the history is submit A, complete A (failed), submit B, complete B,
submit C, and nothing is left in the queue. -/
theorem C4_fifo_one_outstanding_witness :
    run {} [Request.Enqueue ⟨CommandType.CLEAR_CONNECT_LIST, CommandContents.HCICommand [1]⟩,
            Request.Enqueue ⟨CommandType.CLEAR_RESOLVING_LIST, CommandContents.HCICommand [2]⟩,
            Request.Enqueue ⟨CommandType.LE_SET_PRIVACY_MODE, CommandContents.HCICommand [3]⟩,
            Request.CommandComplete false, Request.CommandComplete true]
      = some
        { outstanding := some ⟨CommandType.LE_SET_PRIVACY_MODE, CommandContents.HCICommand [3]⟩
          channel :=
            [ChannelEvent.submit ⟨CommandType.CLEAR_CONNECT_LIST, CommandContents.HCICommand [1]⟩ [],
             ChannelEvent.complete
               ⟨CommandType.CLEAR_CONNECT_LIST, CommandContents.HCICommand [1]⟩ false,
             ChannelEvent.submit
               ⟨CommandType.CLEAR_RESOLVING_LIST, CommandContents.HCICommand [2]⟩ [],
             ChannelEvent.complete
               ⟨CommandType.CLEAR_RESOLVING_LIST, CommandContents.HCICommand [2]⟩ true,
             ChannelEvent.submit
               ⟨CommandType.LE_SET_PRIVACY_MODE, CommandContents.HCICommand [3]⟩ []] }
    ∧ (channel_replay
        [ChannelEvent.submit ⟨CommandType.CLEAR_CONNECT_LIST, CommandContents.HCICommand [1]⟩ [],
         ChannelEvent.complete
           ⟨CommandType.CLEAR_CONNECT_LIST, CommandContents.HCICommand [1]⟩ false,
         ChannelEvent.submit
           ⟨CommandType.CLEAR_RESOLVING_LIST, CommandContents.HCICommand [2]⟩ [],
         ChannelEvent.complete
           ⟨CommandType.CLEAR_RESOLVING_LIST, CommandContents.HCICommand [2]⟩ true,
         ChannelEvent.submit
           ⟨CommandType.LE_SET_PRIVACY_MODE, CommandContents.HCICommand [3]⟩ []] none
        = some (some ⟨CommandType.LE_SET_PRIVACY_MODE, CommandContents.HCICommand [3]⟩)) :=
  ⟨by decide,
   (C4_fifo_one_outstanding {}
     { outstanding := some ⟨CommandType.LE_SET_PRIVACY_MODE, CommandContents.HCICommand [3]⟩
       channel :=
         [ChannelEvent.submit ⟨CommandType.CLEAR_CONNECT_LIST, CommandContents.HCICommand [1]⟩ [],
          ChannelEvent.complete
            ⟨CommandType.CLEAR_CONNECT_LIST, CommandContents.HCICommand [1]⟩ false,
          ChannelEvent.submit
            ⟨CommandType.CLEAR_RESOLVING_LIST, CommandContents.HCICommand [2]⟩ [],
          ChannelEvent.complete
            ⟨CommandType.CLEAR_RESOLVING_LIST, CommandContents.HCICommand [2]⟩ true,
          ChannelEvent.submit
            ⟨CommandType.LE_SET_PRIVACY_MODE, CommandContents.HCICommand [3]⟩ []] }
     [Request.Enqueue ⟨CommandType.CLEAR_CONNECT_LIST, CommandContents.HCICommand [1]⟩,
      Request.Enqueue ⟨CommandType.CLEAR_RESOLVING_LIST, CommandContents.HCICommand [2]⟩,
      Request.Enqueue ⟨CommandType.LE_SET_PRIVACY_MODE, CommandContents.HCICommand [3]⟩,
      Request.CommandComplete false, Request.CommandComplete true]
     rfl rfl rfl (by decide)).1⟩

/-- C5: when `0 ≤ minimum_rotation_time_ ≤ maximum_rotation_time_`, for every draw the value
returned by `GetNextPrivateAddressIntervalMs` lies in
`[minimum_rotation_time_, maximum_rotation_time_]`. -/
theorem C5_interval_within_bounds (m : LeAddressManager) (random : Nat)
    (_hmin : 0 ≤ m.minimum_rotation_time_)
    (hle : m.minimum_rotation_time_ ≤ m.maximum_rotation_time_) :
    m.minimum_rotation_time_ ≤ GetNextPrivateAddressIntervalMs m random
    ∧ GetNextPrivateAddressIntervalMs m random ≤ m.maximum_rotation_time_ := by
  unfold GetNextPrivateAddressIntervalMs
  have hpos : 0 < m.maximum_rotation_time_ - m.minimum_rotation_time_ + 1 := by omega
  have h1 := Int.emod_nonneg (random : Int) (ne_of_gt hpos)
  have h2 := Int.emod_lt_of_pos (random : Int) hpos
  constructor <;> omega

/-- Witness for C5: bounds of 7 and 15 minutes (in ms) and the draw 123456789. -/
theorem C5_interval_within_bounds_witness :
    (420000 : Int)
        ≤ GetNextPrivateAddressIntervalMs
            { minimum_rotation_time_ := 420000, maximum_rotation_time_ := 900000 } 123456789
    ∧ GetNextPrivateAddressIntervalMs
          { minimum_rotation_time_ := 420000, maximum_rotation_time_ := 900000 } 123456789
        ≤ 900000 :=
  C5_interval_within_bounds
    { minimum_rotation_time_ := 420000, maximum_rotation_time_ := 900000 } 123456789
    (by decide) (by decide)

/-- C6: `NewResolvableAddress` and `NewNonResolvableAddress` return an address without
rotating: after either call `le_address_` (what `GetInitiatorAddress` returns),
`cached_address_`, the registered clients with their states, and the command queue are the
same as before. -/
theorem C6_new_address_does_not_rotate (generate_rpa : List Nat → Nat → Nat)
    (generate_nrpa : Nat → Nat) (m : LeAddressManager) (random : Nat) :
    (GetInitiatorAddress (NewResolvableAddress generate_rpa m random).2 = GetInitiatorAddress m
      ∧ (NewResolvableAddress generate_rpa m random).2.le_address_ = m.le_address_
      ∧ (NewResolvableAddress generate_rpa m random).2.cached_address_ = m.cached_address_
      ∧ (NewResolvableAddress generate_rpa m random).2.registered_clients_
          = m.registered_clients_
      ∧ (NewResolvableAddress generate_rpa m random).2.cached_commands_ = m.cached_commands_)
    ∧ (GetInitiatorAddress (NewNonResolvableAddress generate_nrpa m random).2
          = GetInitiatorAddress m
      ∧ (NewNonResolvableAddress generate_nrpa m random).2.le_address_ = m.le_address_
      ∧ (NewNonResolvableAddress generate_nrpa m random).2.cached_address_ = m.cached_address_
      ∧ (NewNonResolvableAddress generate_nrpa m random).2.registered_clients_
          = m.registered_clients_
      ∧ (NewNonResolvableAddress generate_nrpa m random).2.cached_commands_
          = m.cached_commands_) :=
  ⟨⟨rfl, rfl, rfl, rfl, rfl⟩, ⟨rfl, rfl, rfl, rfl, rfl⟩⟩

end Hci

namespace BtaGattc

/-! ## The notification table (C7, C8, C9) -/

theorem slot_matches_iff (slot : tBTA_GATTC_NOTIF_REG) (bda : BD_ADDR) (handle : Nat) :
    slot_matches slot bda handle = true ↔ Holds slot bda handle := by
  unfold slot_matches Holds memcmp
  by_cases h : List.take BD_ADDR_LEN slot.remote_bda = List.take BD_ADDR_LEN bda
  · simp [h]
  · simp [h]

theorem slot_matches_false_iff (slot : tBTA_GATTC_NOTIF_REG) (bda : BD_ADDR) (handle : Nat) :
    slot_matches slot bda handle = false ↔ ¬ Holds slot bda handle := by
  rw [← slot_matches_iff]
  simp

/-- Membership in a table, by position. -/
theorem exists_mem_iff_index (table : List tBTA_GATTC_NOTIF_REG)
    (P : tBTA_GATTC_NOTIF_REG → Prop) :
    (∃ slot ∈ table, P slot) ↔ ∃ j, j < table.length ∧ P (table.getD j notif_reg_zero) := by
  constructor
  · rintro ⟨slot, hmem, hP⟩
    obtain ⟨j, hj, hget⟩ := List.mem_iff_getElem.mp hmem
    refine ⟨j, hj, ?_⟩
    rw [List.getD_eq_getElem _ _ hj, hget]
    exact hP
  · rintro ⟨j, hj, hP⟩
    rw [List.getD_eq_getElem _ _ hj] at hP
    exact ⟨table[j], List.getElem_mem hj, hP⟩

theorem register_match_loop_spec (MAX : Nat) (table : List tBTA_GATTC_NOTIF_REG)
    (bda : BD_ADDR) (handle : Nat) (status : tBTA_GATT_STATUS) (hmax : MAX ≤ 255) :
    ∀ fuel i, i ≤ MAX → MAX - i < fuel →
      ((∃ j, i ≤ j ∧ j < MAX ∧ slot_matches (table.getD j notif_reg_zero) bda handle = true) →
        register_match_loop MAX table bda handle status fuel i
          = some tBTA_GATT_STATUS.BTA_GATT_OK)
      ∧ ((∀ j, i ≤ j → j < MAX →
            slot_matches (table.getD j notif_reg_zero) bda handle = false) →
        register_match_loop MAX table bda handle status fuel i = some status) := by
  intro fuel
  induction fuel with
  | zero => intro i _ h; omega
  | succ fuel ih =>
    intro i hi hfuel
    by_cases hlt : i < MAX
    · have hmod : (i + 1) % 256 = i + 1 := Nat.mod_eq_of_lt (by omega)
      have ih1 := ih (i + 1) (by omega) (by omega)
      by_cases hm : slot_matches (table.getD i notif_reg_zero) bda handle = true
      · constructor
        · intro _
          simp only [register_match_loop, hlt, hm, if_true]
        · intro hall
          have := hall i (le_refl i) hlt
          rw [hm] at this
          exact absurd this (by simp)
      · constructor
        · rintro ⟨j, hij, hj, hjm⟩
          have hne : j ≠ i := fun h => hm (h ▸ hjm)
          simp only [register_match_loop, hlt, hm, hmod, if_true, if_false]
          exact ih1.1 ⟨j, by omega, hj, hjm⟩
        · intro hall
          simp only [register_match_loop, hlt, hm, hmod, if_true, if_false]
          exact ih1.2 (fun j hij hj => hall j (by omega) hj)
    · constructor
      · rintro ⟨j, hij, hj, _⟩
        omega
      · intro _
        simp [register_match_loop, hlt]

theorem register_free_loop_spec (MAX : Nat) (table : List tBTA_GATTC_NOTIF_REG)
    (bda : BD_ADDR) (handle : Nat) (status : tBTA_GATT_STATUS) (hmax : MAX ≤ 255) :
    ∀ fuel i, i ≤ MAX → MAX - i < fuel →
      (∀ j, i ≤ j → j < MAX → (table.getD j notif_reg_zero).in_use = false →
        (∀ k, i ≤ k → k < j → (table.getD k notif_reg_zero).in_use = true) →
        register_free_loop MAX table bda handle status fuel i
          = some (j,
              table.set j
                { notif_reg_zero with
                  in_use := true
                  remote_bda := memcpy notif_reg_zero.remote_bda bda BD_ADDR_LEN
                  handle := handle },
              tBTA_GATT_STATUS.BTA_GATT_OK))
      ∧ ((∀ j, i ≤ j → j < MAX → (table.getD j notif_reg_zero).in_use = true) →
        register_free_loop MAX table bda handle status fuel i = some (MAX, table, status)) := by
  intro fuel
  induction fuel with
  | zero => intro i _ h; omega
  | succ fuel ih =>
    intro i hi hfuel
    by_cases hlt : i < MAX
    · have hmod : (i + 1) % 256 = i + 1 := Nat.mod_eq_of_lt (by omega)
      have ih1 := ih (i + 1) (by omega) (by omega)
      by_cases hu : (table.getD i notif_reg_zero).in_use = true
      · constructor
        · intro j hij hj hfree hbefore
          have hne : j ≠ i := by
            intro h
            rw [h, hu] at hfree
            exact absurd hfree (by simp)
          simp only [register_free_loop, hlt, hu, hmod, if_true, Bool.not_true,
            Bool.false_eq_true, if_false]
          exact ih1.1 j (by omega) hj hfree (fun k hk hkj => hbefore k (by omega) hkj)
        · intro hall
          simp only [register_free_loop, hlt, hu, hmod, if_true, Bool.not_true,
            Bool.false_eq_true, if_false]
          exact ih1.2 (fun j hij hj => hall j (by omega) hj)
      · have hu2 : (table.getD i notif_reg_zero).in_use = false := by
          simpa using hu
        constructor
        · intro j hij hj hfree hbefore
          have hji : j = i := by
            by_contra hne
            have := hbefore i (le_refl i) (by omega)
            exact hu this
          subst hji
          simp only [register_free_loop, hlt, hu2, if_true, Bool.not_false]
        · intro hall
          exact absurd (hall i (le_refl i) hlt) hu
    · have hie : i = MAX := by omega
      constructor
      · intro j hij hj
        omega
      · intro _
        simp [register_free_loop, hlt, hie]

theorem notif_reg_of_get (cb : tBTA_GATTC_CB) (p : Fin cb.cl_rcb.length) :
    notif_reg_of cb p = (cb.cl_rcb.get p).notif_reg := by
  unfold notif_reg_of
  rw [List.getElem?_eq_getElem p.isLt]
  rfl

theorem notif_reg_of_set (cb : tBTA_GATTC_CB) (p : Fin cb.cl_rcb.length)
    (rcb : tBTA_GATTC_RCB) :
    notif_reg_of { cb with cl_rcb := cb.cl_rcb.set p rcb } p = rcb.notif_reg := by
  unfold notif_reg_of
  simp [List.getElem?_set_self, p.isLt]

theorem list_set_get_self {α : Type} (l : List α) (i : Nat) (h : i < l.length) :
    l.set i (l.get ⟨i, h⟩) = l := by
  induction l generalizing i with
  | nil => simp at h
  | cons a rest ih =>
    cases i with
    | zero => simp
    | succ i => simpa using ih i (by simpa using h)

theorem set_same_table (cb : tBTA_GATTC_CB) (p : Fin cb.cl_rcb.length) :
    ({ cb with
        cl_rcb := cb.cl_rcb.set p
          { cb.cl_rcb.get p with notif_reg := (cb.cl_rcb.get p).notif_reg } } : tBTA_GATTC_CB)
      = cb := by
  cases cb with
  | mk cl_rcb =>
    simp only [tBTA_GATTC_CB.mk.injEq]
    exact list_set_get_self cl_rcb p.val p.isLt

/-- The slot written by a successful registration holds the registration. -/
theorem new_slot_holds (bda : BD_ADDR) (handle : Nat) :
    Holds { notif_reg_zero with
            in_use := true
            remote_bda := memcpy notif_reg_zero.remote_bda bda BD_ADDR_LEN
            handle := handle } bda handle := by
  refine ⟨rfl, ?_, rfl⟩
  simp only [memcpy, notif_reg_zero, BD_ADDR_LEN]
  simp [List.take_append_eq_append_take]

/-- C7: for a registered `client_if` (the lookup yields the control block at `p`, whose
table has `BTA_GATTC_NOTIF_REG_MAX ≤ 255` slots), a non-zero `handle` and any `bda`,
`BTA_GATTC_RegisterForNotifications` returns, and it returns `BTA_GATT_OK` exactly when on
return some in-use slot of that client table holds `(bda, handle)`; that is the case iff the
pair was already registered or some slot was free before the call; otherwise the result is
`BTA_GATT_NO_RESOURCES` and the control block is unchanged. -/
theorem C7_RegisterForNotifications
    (get_regcb : (cb : tBTA_GATTC_CB) → Nat → Option (Fin cb.cl_rcb.length))
    (MAX : Nat) (cb : tBTA_GATTC_CB) (client_if : Nat) (bda : BD_ADDR) (handle : Nat)
    (p : Fin cb.cl_rcb.length) (hmax : MAX ≤ 255) (hreg : get_regcb cb client_if = some p)
    (hlen : (notif_reg_of cb p).length = MAX) (hhandle : handle ≠ 0) :
    ∃ status cb1,
      BTA_GATTC_RegisterForNotifications get_regcb MAX cb client_if bda handle
        = some (status, cb1)
      ∧ (status = tBTA_GATT_STATUS.BTA_GATT_OK ↔
          ∃ slot ∈ notif_reg_of cb1 p, Holds slot bda handle)
      ∧ ((∃ slot ∈ notif_reg_of cb1 p, Holds slot bda handle) ↔
          ((∃ slot ∈ notif_reg_of cb p, Holds slot bda handle)
            ∨ ∃ slot ∈ notif_reg_of cb p, slot.in_use = false))
      ∧ (status ≠ tBTA_GATT_STATUS.BTA_GATT_OK →
          status = tBTA_GATT_STATUS.BTA_GATT_NO_RESOURCES ∧ cb1 = cb) := by
  rw [notif_reg_of_get] at hlen
  have hm := register_match_loop_spec MAX (cb.cl_rcb.get p).notif_reg bda handle
    tBTA_GATT_STATUS.BTA_GATT_ILLEGAL_PARAMETER hmax 256 0 (Nat.zero_le _) (by omega)
  have hf := register_free_loop_spec MAX (cb.cl_rcb.get p).notif_reg bda handle
    tBTA_GATT_STATUS.BTA_GATT_ILLEGAL_PARAMETER hmax 256 0 (Nat.zero_le _) (by omega)
  by_cases hex : ∃ j, 0 ≤ j ∧ j < MAX
      ∧ slot_matches ((cb.cl_rcb.get p).notif_reg.getD j notif_reg_zero) bda handle = true
  · -- the pair is already registered
    have hold : ∃ slot ∈ notif_reg_of cb p, Holds slot bda handle := by
      rw [notif_reg_of_get, exists_mem_iff_index]
      obtain ⟨j, _, hj, hjm⟩ := hex
      exact ⟨j, by omega, (slot_matches_iff _ _ _).mp hjm⟩
    refine ⟨tBTA_GATT_STATUS.BTA_GATT_OK, cb, ?_, ?_, ?_, ?_⟩
    · unfold BTA_GATTC_RegisterForNotifications
      simp only [hhandle, if_false, hreg]
      rw [hm.1 hex]
      simp
    · exact ⟨fun _ => hold, fun _ => rfl⟩
    · exact ⟨fun h => Or.inl h, fun _ => hold⟩
    · intro h
      exact absurd rfl h
  · have hnone : ∀ j, 0 ≤ j → j < MAX →
        slot_matches ((cb.cl_rcb.get p).notif_reg.getD j notif_reg_zero) bda handle = false := by
      intro j h0 hj
      by_contra hc
      exact hex ⟨j, h0, hj, by simpa using hc⟩
    have hnot : ¬ ∃ slot ∈ notif_reg_of cb p, Holds slot bda handle := by
      rw [notif_reg_of_get, exists_mem_iff_index]
      rintro ⟨j, hj, hh⟩
      have := hnone j (Nat.zero_le _) (by omega)
      rw [slot_matches_false_iff] at this
      exact this hh
    by_cases hfree : ∃ j, j < MAX
        ∧ ((cb.cl_rcb.get p).notif_reg.getD j notif_reg_zero).in_use = false
    · -- a slot is free: the first free one is taken
      have hmin := fun m => @Nat.find_min _ _ hfree m
      obtain ⟨hj, hjf⟩ := Nat.find_spec hfree
      have hbefore : ∀ k, 0 ≤ k → k < Nat.find hfree →
          ((cb.cl_rcb.get p).notif_reg.getD k notif_reg_zero).in_use = true := by
        intro k _ hk
        have := hmin k hk
        by_contra hc
        exact this ⟨by omega, by simpa using hc⟩
      have hloop := hf.1 (Nat.find hfree) (Nat.zero_le _) hj hjf hbefore
      obtain ⟨cbN, hcbN⟩ : ∃ c : tBTA_GATTC_CB, c =
          { cb with
            cl_rcb := cb.cl_rcb.set p
              { cb.cl_rcb.get p with
                notif_reg := (cb.cl_rcb.get p).notif_reg.set (Nat.find hfree)
                  { notif_reg_zero with
                    in_use := true
                    remote_bda := memcpy notif_reg_zero.remote_bda bda BD_ADDR_LEN
                    handle := handle } } } := ⟨_, rfl⟩
      have hnew : ∃ slot ∈ notif_reg_of cbN p, Holds slot bda handle := by
        rw [hcbN, notif_reg_of_set]
        refine ⟨_, ?_, new_slot_holds bda handle⟩
        exact List.mem_iff_getElem.mpr
          ⟨Nat.find hfree, by rw [List.length_set, hlen]; exact hj, by simp⟩
      refine ⟨tBTA_GATT_STATUS.BTA_GATT_OK, cbN, ?_, ?_, ?_, ?_⟩
      · unfold BTA_GATTC_RegisterForNotifications
        simp only [hhandle, if_false, hreg]
        rw [hm.2 hnone]
        simp only [ne_eq, reduceCtorEq, not_false_eq_true, if_true]
        rw [hloop]
        simp only [Nat.ne_of_lt hj, if_false]
        rw [hcbN]
      · exact ⟨fun _ => hnew, fun _ => rfl⟩
      · refine ⟨fun _ => Or.inr ?_, fun _ => hnew⟩
        rw [notif_reg_of_get, exists_mem_iff_index]
        exact ⟨Nat.find hfree, by omega, hjf⟩
      · intro h
        exact absurd rfl h
    · -- no slot is free
      have hall : ∀ j, 0 ≤ j → j < MAX →
          ((cb.cl_rcb.get p).notif_reg.getD j notif_reg_zero).in_use = true := by
        intro j _ hj
        by_contra hc
        exact hfree ⟨j, hj, by simpa using hc⟩
      have hnofree : ¬ ∃ slot ∈ notif_reg_of cb p, slot.in_use = false := by
        rw [notif_reg_of_get, exists_mem_iff_index]
        rintro ⟨j, hj, hh⟩
        have := hall j (Nat.zero_le _) (by omega)
        rw [hh] at this
        exact absurd this (by simp)
      refine ⟨tBTA_GATT_STATUS.BTA_GATT_NO_RESOURCES, cb, ?_, ?_, ?_, ?_⟩
      · unfold BTA_GATTC_RegisterForNotifications
        simp only [hhandle, if_false, hreg]
        rw [hm.2 hnone]
        simp only [ne_eq, reduceCtorEq, not_false_eq_true, if_true]
        rw [hf.2 hall]
        simp only [if_true]
        rw [set_same_table]
      · exact ⟨fun h => absurd h (by simp), fun h => absurd h hnot⟩
      · exact ⟨fun h => absurd h hnot, fun h => h.elim (fun h1 => absurd h1 hnot)
          (fun h2 => absurd h2 hnofree)⟩
      · intro _
        exact ⟨rfl, rfl⟩

/-- Witness for C7: client 7 has a two-slot table whose first slot is taken by another
registration; registering `(bda, 9)` takes the free second slot and returns `BTA_GATT_OK`. -/
theorem C7_RegisterForNotifications_witness :
    get_regcb_by_client_if ⟨[⟨true, 7, [⟨true, [1, 2, 3, 4, 5, 6], 9⟩, notif_reg_zero]⟩]⟩ 7
      = some ⟨0, by decide⟩
    ∧ BTA_GATTC_RegisterForNotifications get_regcb_by_client_if 2
        ⟨[⟨true, 7, [⟨true, [1, 2, 3, 4, 5, 6], 9⟩, notif_reg_zero]⟩]⟩ 7 [1, 2, 3, 4, 5, 7] 9
      = some (tBTA_GATT_STATUS.BTA_GATT_OK,
          ⟨[⟨true, 7, [⟨true, [1, 2, 3, 4, 5, 6], 9⟩, ⟨true, [1, 2, 3, 4, 5, 7], 9⟩]⟩]⟩)
    ∧ ∃ status cb1,
        BTA_GATTC_RegisterForNotifications get_regcb_by_client_if 2
          ⟨[⟨true, 7, [⟨true, [1, 2, 3, 4, 5, 6], 9⟩, notif_reg_zero]⟩]⟩ 7 [1, 2, 3, 4, 5, 7] 9
          = some (status, cb1)
        ∧ (status = tBTA_GATT_STATUS.BTA_GATT_OK ↔
            ∃ slot ∈ notif_reg_of cb1 0, Holds slot [1, 2, 3, 4, 5, 7] 9)
        ∧ ((∃ slot ∈ notif_reg_of cb1 0, Holds slot [1, 2, 3, 4, 5, 7] 9) ↔
            ((∃ slot ∈ notif_reg_of
                  ⟨[⟨true, 7, [⟨true, [1, 2, 3, 4, 5, 6], 9⟩, notif_reg_zero]⟩]⟩ 0,
                Holds slot [1, 2, 3, 4, 5, 7] 9)
              ∨ ∃ slot ∈ notif_reg_of
                  ⟨[⟨true, 7, [⟨true, [1, 2, 3, 4, 5, 6], 9⟩, notif_reg_zero]⟩]⟩ 0,
                slot.in_use = false))
        ∧ (status ≠ tBTA_GATT_STATUS.BTA_GATT_OK →
            status = tBTA_GATT_STATUS.BTA_GATT_NO_RESOURCES
            ∧ cb1 = ⟨[⟨true, 7, [⟨true, [1, 2, 3, 4, 5, 6], 9⟩, notif_reg_zero]⟩]⟩) :=
  ⟨by decide, by decide,
   C7_RegisterForNotifications get_regcb_by_client_if 2
     ⟨[⟨true, 7, [⟨true, [1, 2, 3, 4, 5, 6], 9⟩, notif_reg_zero]⟩]⟩ 7 [1, 2, 3, 4, 5, 7] 9
     ⟨0, by decide⟩ (by decide) (by decide) (by decide) (by decide)⟩

theorem deregister_loop_spec (MAX : Nat) (table : List tBTA_GATTC_NOTIF_REG)
    (bda : BD_ADDR) (handle : Nat) :
    ∀ fuel i, i ≤ MAX → MAX - i < fuel →
      (∀ j, i ≤ j → j < MAX →
        slot_matches (table.getD j notif_reg_zero) bda handle = true →
        (∀ k, i ≤ k → k < j →
          slot_matches (table.getD k notif_reg_zero) bda handle = false) →
        deregister_loop MAX table bda handle fuel i
          = some (tBTA_GATT_STATUS.BTA_GATT_OK, table.set j notif_reg_zero))
      ∧ ((∀ j, i ≤ j → j < MAX →
            slot_matches (table.getD j notif_reg_zero) bda handle = false) →
        deregister_loop MAX table bda handle fuel i
          = some (tBTA_GATT_STATUS.BTA_GATT_ERROR, table)) := by
  intro fuel
  induction fuel with
  | zero => intro i _ h; omega
  | succ fuel ih =>
    intro i hi hfuel
    by_cases hlt : i < MAX
    · have ih1 := ih (i + 1) (by omega) (by omega)
      by_cases hm : slot_matches (table.getD i notif_reg_zero) bda handle = true
      · constructor
        · intro j hij hj hjm hbefore
          have hji : j = i := by
            by_contra hne
            have := hbefore i (le_refl i) (by omega)
            rw [hm] at this
            exact absurd this (by simp)
          subst hji
          simp only [deregister_loop, hlt, hm, if_true]
        · intro hall
          have := hall i (le_refl i) hlt
          rw [hm] at this
          exact absurd this (by simp)
      · constructor
        · intro j hij hj hjm hbefore
          have hne : j ≠ i := fun h => hm (h ▸ hjm)
          simp only [deregister_loop, hlt, hm, if_true, if_false]
          exact ih1.1 j (by omega) hj hjm (fun k hk hkj => hbefore k (by omega) hkj)
        · intro hall
          simp only [deregister_loop, hlt, hm, if_true, if_false]
          exact ih1.2 (fun j hij hj => hall j (by omega) hj)
    · constructor
      · intro j hij hj
        omega
      · intro _
        simp only [deregister_loop, hlt, if_false]

/-- C8: for a registered `client_if` (the lookup yields the control block at `p`, whose
table has `BTA_GATTC_NOTIF_REG_MAX` slots), a non-zero `handle` and any `bda`,
`BTA_GATTC_DeregisterForNotifications` returns, with `BTA_GATT_OK` iff some in-use slot held
`(bda, handle)` before the call. In that case the table afterwards is the table before with
the lowest-index such slot zeroed (so no longer in use) and every other slot unchanged. If no
slot matched the result is `BTA_GATT_ERROR` and the control block is unchanged. The control
blocks of the other clients are unchanged in every case. -/
theorem C8_DeregisterForNotifications
    (get_regcb : (cb : tBTA_GATTC_CB) → Nat → Option (Fin cb.cl_rcb.length))
    (MAX : Nat) (cb : tBTA_GATTC_CB) (client_if : Nat) (bda : BD_ADDR) (handle : Nat)
    (p : Fin cb.cl_rcb.length) (hreg : get_regcb cb client_if = some p)
    (hlen : (notif_reg_of cb p).length = MAX) (hhandle : handle ≠ 0) :
    ∃ status cb1,
      BTA_GATTC_DeregisterForNotifications get_regcb MAX cb client_if bda handle
        = some (status, cb1)
      ∧ (status = tBTA_GATT_STATUS.BTA_GATT_OK ↔
          ∃ slot ∈ notif_reg_of cb p, Holds slot bda handle)
      ∧ (∀ j, j < MAX → Holds ((notif_reg_of cb p).getD j notif_reg_zero) bda handle →
          (∀ k, k < j → ¬ Holds ((notif_reg_of cb p).getD k notif_reg_zero) bda handle) →
          notif_reg_of cb1 p = (notif_reg_of cb p).set j notif_reg_zero
          ∧ ((notif_reg_of cb1 p).getD j notif_reg_zero).in_use = false)
      ∧ ((¬ ∃ slot ∈ notif_reg_of cb p, Holds slot bda handle) →
          status = tBTA_GATT_STATUS.BTA_GATT_ERROR ∧ cb1 = cb)
      ∧ (∀ q, q ≠ p.val → cb1.cl_rcb[q]? = cb.cl_rcb[q]?) := by
  have hget := notif_reg_of_get cb p
  rw [hget] at hlen
  have hd := deregister_loop_spec MAX (cb.cl_rcb.get p).notif_reg bda handle (MAX + 1) 0
    (Nat.zero_le _) (by omega)
  by_cases hex : ∃ j, j < MAX
      ∧ slot_matches ((cb.cl_rcb.get p).notif_reg.getD j notif_reg_zero) bda handle = true
  · have hmin := fun m => @Nat.find_min _ _ hex m
    obtain ⟨hj, hjm⟩ := Nat.find_spec hex
    have hbefore : ∀ k, 0 ≤ k → k < Nat.find hex →
        slot_matches ((cb.cl_rcb.get p).notif_reg.getD k notif_reg_zero) bda handle = false := by
      intro k _ hk
      have := hmin k hk
      by_contra hc
      exact this ⟨by omega, by simpa using hc⟩
    have hloop := hd.1 (Nat.find hex) (Nat.zero_le _) hj hjm hbefore
    have hold : ∃ slot ∈ notif_reg_of cb p, Holds slot bda handle := by
      rw [hget, exists_mem_iff_index]
      exact ⟨Nat.find hex, by omega, (slot_matches_iff _ _ _).mp hjm⟩
    obtain ⟨cbN, hcbN⟩ : ∃ c : tBTA_GATTC_CB, c =
        { cb with
          cl_rcb := cb.cl_rcb.set p
            { cb.cl_rcb.get p with
              notif_reg := (cb.cl_rcb.get p).notif_reg.set (Nat.find hex) notif_reg_zero } } :=
      ⟨_, rfl⟩
    refine ⟨tBTA_GATT_STATUS.BTA_GATT_OK, cbN, ?_, ?_, ?_, ?_, ?_⟩
    · unfold BTA_GATTC_DeregisterForNotifications
      simp only [hhandle, if_false, hreg]
      rw [hloop, hcbN]
    · exact ⟨fun _ => hold, fun _ => rfl⟩
    · intro j hj2 hjh hjbefore
      have hjeq : j = Nat.find hex := by
        rw [hget] at hjh hjbefore
        rcases Nat.lt_trichotomy j (Nat.find hex) with hlt | heq | hgt
        · have := hbefore j (Nat.zero_le _) hlt
          rw [slot_matches_false_iff] at this
          exact absurd hjh this
        · exact heq
        · exact absurd ((slot_matches_iff _ _ _).mp hjm) (hjbefore _ hgt)
      subst hjeq
      have htab : notif_reg_of cbN p
          = (notif_reg_of cb p).set (Nat.find hex) notif_reg_zero := by
        rw [hcbN, notif_reg_of_set, hget]
      refine ⟨htab, ?_⟩
      rw [htab, hget, List.getD_eq_getElem _ _ (by rw [List.length_set, hlen]; exact hj)]
      simp [notif_reg_zero]
    · intro hno
      exact absurd hold hno
    · intro q hq
      rw [hcbN]
      exact List.getElem?_set_ne (fun h => hq h.symm)
  · have hnone : ∀ j, 0 ≤ j → j < MAX →
        slot_matches ((cb.cl_rcb.get p).notif_reg.getD j notif_reg_zero) bda handle = false := by
      intro j _ hj
      by_contra hc
      exact hex ⟨j, hj, by simpa using hc⟩
    have hnot : ¬ ∃ slot ∈ notif_reg_of cb p, Holds slot bda handle := by
      rw [hget, exists_mem_iff_index]
      rintro ⟨j, hj, hh⟩
      have := hnone j (Nat.zero_le _) (by omega)
      rw [slot_matches_false_iff] at this
      exact this hh
    refine ⟨tBTA_GATT_STATUS.BTA_GATT_ERROR, cb, ?_, ?_, ?_, ?_, ?_⟩
    · unfold BTA_GATTC_DeregisterForNotifications
      simp only [hhandle, if_false, hreg]
      rw [hd.2 hnone]
      simp only []
      rw [set_same_table]
    · exact ⟨fun h => absurd h (by simp), fun h => absurd h hnot⟩
    · intro j hj2 hjh _
      rw [hget] at hjh
      have := hnone j (Nat.zero_le _) hj2
      rw [slot_matches_false_iff] at this
      exact absurd hjh this
    · intro _
      exact ⟨rfl, rfl⟩
    · intro q _
      rfl

/-- Registering a pair that some in-use slot already holds returns `BTA_GATT_OK` and leaves
the control block as it was (for a table of at most 255 slots). -/
theorem RegisterForNotifications_already_registered
    (get_regcb : (cb : tBTA_GATTC_CB) → Nat → Option (Fin cb.cl_rcb.length))
    (MAX : Nat) (cb : tBTA_GATTC_CB) (client_if : Nat) (bda : BD_ADDR) (handle : Nat)
    (p : Fin cb.cl_rcb.length) (hmax : MAX ≤ 255) (hreg : get_regcb cb client_if = some p)
    (hlen : (notif_reg_of cb p).length = MAX) (hhandle : handle ≠ 0)
    (hold : ∃ slot ∈ notif_reg_of cb p, Holds slot bda handle) :
    BTA_GATTC_RegisterForNotifications get_regcb MAX cb client_if bda handle
      = some (tBTA_GATT_STATUS.BTA_GATT_OK, cb) := by
  rw [notif_reg_of_get] at hlen hold
  rw [exists_mem_iff_index] at hold
  obtain ⟨j, hj, hh⟩ := hold
  have hm := register_match_loop_spec MAX (cb.cl_rcb.get p).notif_reg bda handle
    tBTA_GATT_STATUS.BTA_GATT_ILLEGAL_PARAMETER hmax 256 0 (Nat.zero_le _) (by omega)
  unfold BTA_GATTC_RegisterForNotifications
  simp only [hhandle, if_false, hreg]
  rw [hm.1 ⟨j, Nat.zero_le _, by omega, (slot_matches_iff _ _ _).mpr hh⟩]
  simp

/-- Registering again the pair held by slot 0 of client 7 changes nothing. -/
theorem RegisterForNotifications_already_registered_witness :
    BTA_GATTC_RegisterForNotifications get_regcb_by_client_if 2
        ⟨[⟨true, 7, [⟨true, [1, 2, 3, 4, 5, 6], 9⟩, notif_reg_zero]⟩]⟩ 7 [1, 2, 3, 4, 5, 6] 9
      = some (tBTA_GATT_STATUS.BTA_GATT_OK,
          ⟨[⟨true, 7, [⟨true, [1, 2, 3, 4, 5, 6], 9⟩, notif_reg_zero]⟩]⟩) :=
  RegisterForNotifications_already_registered get_regcb_by_client_if 2
    ⟨[⟨true, 7, [⟨true, [1, 2, 3, 4, 5, 6], 9⟩, notif_reg_zero]⟩]⟩ 7 [1, 2, 3, 4, 5, 6] 9
    ⟨0, by decide⟩ (by decide) (by decide) (by decide) (by decide)
    ⟨⟨true, [1, 2, 3, 4, 5, 6], 9⟩, by decide, by decide, by decide, by decide⟩

/-- Witness for C8: the registration `(bda, 9)` sits in slots 0 and 2 of the three-slot
table of client 7; deregistering it zeroes slot 0 only and returns `BTA_GATT_OK`. -/
theorem C8_DeregisterForNotifications_witness :
    get_regcb_by_client_if
        ⟨[⟨true, 7, [⟨true, [1, 2, 3, 4, 5, 6], 9⟩, ⟨true, [1, 2, 3, 4, 5, 7], 9⟩,
                     ⟨true, [1, 2, 3, 4, 5, 6], 9⟩]⟩]⟩ 7
      = some ⟨0, by decide⟩
    ∧ BTA_GATTC_DeregisterForNotifications get_regcb_by_client_if 3
        ⟨[⟨true, 7, [⟨true, [1, 2, 3, 4, 5, 6], 9⟩, ⟨true, [1, 2, 3, 4, 5, 7], 9⟩,
                     ⟨true, [1, 2, 3, 4, 5, 6], 9⟩]⟩]⟩ 7 [1, 2, 3, 4, 5, 6] 9
      = some (tBTA_GATT_STATUS.BTA_GATT_OK,
          ⟨[⟨true, 7, [notif_reg_zero, ⟨true, [1, 2, 3, 4, 5, 7], 9⟩,
                       ⟨true, [1, 2, 3, 4, 5, 6], 9⟩]⟩]⟩)
    ∧ ∃ status cb1,
        BTA_GATTC_DeregisterForNotifications get_regcb_by_client_if 3
          ⟨[⟨true, 7, [⟨true, [1, 2, 3, 4, 5, 6], 9⟩, ⟨true, [1, 2, 3, 4, 5, 7], 9⟩,
                       ⟨true, [1, 2, 3, 4, 5, 6], 9⟩]⟩]⟩ 7 [1, 2, 3, 4, 5, 6] 9
          = some (status, cb1)
        ∧ (status = tBTA_GATT_STATUS.BTA_GATT_OK ↔
            ∃ slot ∈ notif_reg_of
                ⟨[⟨true, 7, [⟨true, [1, 2, 3, 4, 5, 6], 9⟩, ⟨true, [1, 2, 3, 4, 5, 7], 9⟩,
                             ⟨true, [1, 2, 3, 4, 5, 6], 9⟩]⟩]⟩ 0,
              Holds slot [1, 2, 3, 4, 5, 6] 9)
        ∧ (∀ j, j < 3 →
            Holds ((notif_reg_of
                ⟨[⟨true, 7, [⟨true, [1, 2, 3, 4, 5, 6], 9⟩, ⟨true, [1, 2, 3, 4, 5, 7], 9⟩,
                             ⟨true, [1, 2, 3, 4, 5, 6], 9⟩]⟩]⟩ 0).getD j notif_reg_zero)
              [1, 2, 3, 4, 5, 6] 9 →
            (∀ k, k < j →
              ¬ Holds ((notif_reg_of
                ⟨[⟨true, 7, [⟨true, [1, 2, 3, 4, 5, 6], 9⟩, ⟨true, [1, 2, 3, 4, 5, 7], 9⟩,
                             ⟨true, [1, 2, 3, 4, 5, 6], 9⟩]⟩]⟩ 0).getD k notif_reg_zero)
                [1, 2, 3, 4, 5, 6] 9) →
            notif_reg_of cb1 0
              = (notif_reg_of
                  ⟨[⟨true, 7, [⟨true, [1, 2, 3, 4, 5, 6], 9⟩, ⟨true, [1, 2, 3, 4, 5, 7], 9⟩,
                               ⟨true, [1, 2, 3, 4, 5, 6], 9⟩]⟩]⟩ 0).set j notif_reg_zero
            ∧ ((notif_reg_of cb1 0).getD j notif_reg_zero).in_use = false)
        ∧ ((¬ ∃ slot ∈ notif_reg_of
                ⟨[⟨true, 7, [⟨true, [1, 2, 3, 4, 5, 6], 9⟩, ⟨true, [1, 2, 3, 4, 5, 7], 9⟩,
                             ⟨true, [1, 2, 3, 4, 5, 6], 9⟩]⟩]⟩ 0,
              Holds slot [1, 2, 3, 4, 5, 6] 9) →
            status = tBTA_GATT_STATUS.BTA_GATT_ERROR
            ∧ cb1 = ⟨[⟨true, 7, [⟨true, [1, 2, 3, 4, 5, 6], 9⟩, ⟨true, [1, 2, 3, 4, 5, 7], 9⟩,
                                 ⟨true, [1, 2, 3, 4, 5, 6], 9⟩]⟩]⟩)
        ∧ (∀ q, q ≠ 0 → cb1.cl_rcb[q]?
            = (⟨[⟨true, 7, [⟨true, [1, 2, 3, 4, 5, 6], 9⟩, ⟨true, [1, 2, 3, 4, 5, 7], 9⟩,
                            ⟨true, [1, 2, 3, 4, 5, 6], 9⟩]⟩]⟩ : tBTA_GATTC_CB).cl_rcb[q]?) :=
  ⟨by decide, by decide,
   C8_DeregisterForNotifications get_regcb_by_client_if 3
     ⟨[⟨true, 7, [⟨true, [1, 2, 3, 4, 5, 6], 9⟩, ⟨true, [1, 2, 3, 4, 5, 7], 9⟩,
                  ⟨true, [1, 2, 3, 4, 5, 6], 9⟩]⟩]⟩ 7 [1, 2, 3, 4, 5, 6] 9
     ⟨0, by decide⟩ (by decide) (by decide) (by decide)⟩

/-- C9: a call of `BTA_GATTC_RegisterForNotifications` or of
`BTA_GATTC_DeregisterForNotifications` with `handle == 0`, or with a `client_if` for which
the lookup finds no registration control block, returns `BTA_GATT_ILLEGAL_PARAMETER` and
leaves the whole control block, hence the notification table of every client, as it was. -/
theorem C9_invalid_parameters_rejected
    (get_regcb : (cb : tBTA_GATTC_CB) → Nat → Option (Fin cb.cl_rcb.length))
    (MAX : Nat) (cb : tBTA_GATTC_CB) (client_if : Nat) (bda : BD_ADDR) (handle : Nat)
    (h : handle = 0 ∨ get_regcb cb client_if = none) :
    BTA_GATTC_RegisterForNotifications get_regcb MAX cb client_if bda handle
      = some (tBTA_GATT_STATUS.BTA_GATT_ILLEGAL_PARAMETER, cb)
    ∧ BTA_GATTC_DeregisterForNotifications get_regcb MAX cb client_if bda handle
      = some (tBTA_GATT_STATUS.BTA_GATT_ILLEGAL_PARAMETER, cb) := by
  unfold BTA_GATTC_RegisterForNotifications BTA_GATTC_DeregisterForNotifications
  by_cases h0 : handle = 0
  · simp only [h0, if_true, and_self]
  · rcases h with h | h
    · exact absurd h h0
    · simp only [h0, if_false, h, and_self]

/-- Witness for C9: handle 0 for the registered client 7, and handle 9 for the unknown
client 8; both calls are rejected and the control block is returned as it was. -/
theorem C9_invalid_parameters_rejected_witness :
    (BTA_GATTC_RegisterForNotifications get_regcb_by_client_if 2
        ⟨[⟨true, 7, [⟨true, [1, 2, 3, 4, 5, 6], 9⟩, notif_reg_zero]⟩]⟩ 7 [1, 2, 3, 4, 5, 6] 0
      = some (tBTA_GATT_STATUS.BTA_GATT_ILLEGAL_PARAMETER,
          ⟨[⟨true, 7, [⟨true, [1, 2, 3, 4, 5, 6], 9⟩, notif_reg_zero]⟩]⟩)
     ∧ BTA_GATTC_DeregisterForNotifications get_regcb_by_client_if 2
        ⟨[⟨true, 7, [⟨true, [1, 2, 3, 4, 5, 6], 9⟩, notif_reg_zero]⟩]⟩ 7 [1, 2, 3, 4, 5, 6] 0
      = some (tBTA_GATT_STATUS.BTA_GATT_ILLEGAL_PARAMETER,
          ⟨[⟨true, 7, [⟨true, [1, 2, 3, 4, 5, 6], 9⟩, notif_reg_zero]⟩]⟩))
    ∧ (BTA_GATTC_RegisterForNotifications get_regcb_by_client_if 2
        ⟨[⟨true, 7, [⟨true, [1, 2, 3, 4, 5, 6], 9⟩, notif_reg_zero]⟩]⟩ 8 [1, 2, 3, 4, 5, 6] 9
      = some (tBTA_GATT_STATUS.BTA_GATT_ILLEGAL_PARAMETER,
          ⟨[⟨true, 7, [⟨true, [1, 2, 3, 4, 5, 6], 9⟩, notif_reg_zero]⟩]⟩)
     ∧ BTA_GATTC_DeregisterForNotifications get_regcb_by_client_if 2
        ⟨[⟨true, 7, [⟨true, [1, 2, 3, 4, 5, 6], 9⟩, notif_reg_zero]⟩]⟩ 8 [1, 2, 3, 4, 5, 6] 9
      = some (tBTA_GATT_STATUS.BTA_GATT_ILLEGAL_PARAMETER,
          ⟨[⟨true, 7, [⟨true, [1, 2, 3, 4, 5, 6], 9⟩, notif_reg_zero]⟩]⟩)) :=
  ⟨C9_invalid_parameters_rejected get_regcb_by_client_if 2
     ⟨[⟨true, 7, [⟨true, [1, 2, 3, 4, 5, 6], 9⟩, notif_reg_zero]⟩]⟩ 7 [1, 2, 3, 4, 5, 6] 0
     (Or.inl rfl),
   C9_invalid_parameters_rejected get_regcb_by_client_if 2
     ⟨[⟨true, 7, [⟨true, [1, 2, 3, 4, 5, 6], 9⟩, notif_reg_zero]⟩]⟩ 8 [1, 2, 3, 4, 5, 6] 9
     (Or.inr (by decide))⟩

end BtaGattc

namespace BtifConfig

/-- C10: `btif_config_get_int` returns true iff the store reports that the key exists in
the section; when it returns false `*value` is what it was on entry; when it returns true
`*value` is the integer the store yields for the key (`config_get_int`, called with the
old `*value` as its default). -/
theorem C10_btif_config_get_int {config_t : Type}
    (config_has_key : config_t → String → String → Bool)
    (config_get_int : config_t → String → String → Int → Int)
    (config : config_t) (sec key : String) (value : Int) :
    ((btif_config_get_int config_has_key config_get_int config sec key value).1 = true ↔
        config_has_key config sec key = true)
    ∧ ((btif_config_get_int config_has_key config_get_int config sec key value).1 = false →
        (btif_config_get_int config_has_key config_get_int config sec key value).2 = value)
    ∧ ((btif_config_get_int config_has_key config_get_int config sec key value).1 = true →
        (btif_config_get_int config_has_key config_get_int config sec key value).2
          = config_get_int config sec key value) := by
  unfold btif_config_get_int
  cases h : config_has_key config sec key <;> simp

end BtifConfig

namespace BtifConfig

/-! ## Binary lookup (C11) -/

theorem all_isxdigit_false_iff (cs : List Char) :
    all_isxdigit cs = false ↔ ∃ c ∈ cs, isxdigit c = false := by
  induction cs with
  | nil => simp [all_isxdigit]
  | cons c rest ih =>
    by_cases hc : isxdigit c = true
    · simp [all_isxdigit, hc, ih]
    · have hc2 : isxdigit c = false := by simpa using hc
      simp [all_isxdigit, hc2]

/-- The decoding loop runs to its end on a string of even length. -/
theorem decode_loop_even (cs : List Char) (value : List Nat) (length : Nat)
    (heven : cs.length % 2 = 0) :
    ∃ value1, decode_loop cs value length = some (value1, length + cs.length / 2)
      ∧ value1.length = value.length := by
  induction cs, value, length using decode_loop.induct with
  | case1 value length => exact ⟨value, by simp [decode_loop], rfl⟩
  | case2 c value length => simp at heven
  | case3 c0 c1 rest value length ih =>
    have hrest : rest.length % 2 = 0 := by
      simp only [List.length_cons] at heven
      omega
    obtain ⟨value1, h1, h2⟩ := ih hrest
    refine ⟨value1, ?_, by simpa using h2⟩
    simp only [decode_loop, h1, List.length_cons]
    congr 2
    omega

/-- C11: `btif_config_get_bin` returns, and it returns false, with the output buffer and
`*length` as they were on entry, iff the key has no stored string, or the stored string has
odd length, or it contains a character that is not a hexadecimal digit, or `*length` is
smaller than half the string length; in every other case it returns true. -/
theorem C11_btif_config_get_bin_fails_atomically {config_t : Type}
    (config_get_string : config_t → String → String → Option String → Option String)
    (config : config_t) (sec key : String) (value : List Nat) (length : Nat) :
    ∃ ret value1 length1,
      btif_config_get_bin config_get_string config sec key value length
        = some (ret, value1, length1)
      ∧ (ret = false ↔
          (config_get_string config sec key none = none
            ∨ ∃ value_str, config_get_string config sec key none = some value_str
                ∧ (value_str.length % 2 ≠ 0
                  ∨ (∃ c ∈ value_str.data, isxdigit c = false)
                  ∨ length < value_str.length / 2)))
      ∧ (ret = false → value1 = value ∧ length1 = length) := by
  unfold btif_config_get_bin
  cases hs : config_get_string config sec key none with
  | none => exact ⟨false, value, length, rfl, by simp, fun _ => ⟨rfl, rfl⟩⟩
  | some value_str =>
    by_cases h1 : value_str.length % 2 ≠ 0 ∨ length < value_str.length / 2
    · refine ⟨false, value, length, by simp only [h1, if_true], ?_, fun _ => ⟨rfl, rfl⟩⟩
      simp only [true_iff]
      refine Or.inr ⟨value_str, rfl, ?_⟩
      rcases h1 with h | h
      · exact Or.inl h
      · exact Or.inr (Or.inr h)
    · by_cases h2 : all_isxdigit value_str.data = false
      · refine ⟨false, value, length, by simp only [h1, h2, if_true, if_false], ?_,
          fun _ => ⟨rfl, rfl⟩⟩
        simp only [true_iff]
        exact Or.inr ⟨value_str, rfl, Or.inr (Or.inl ((all_isxdigit_false_iff _).mp h2))⟩
      · have heven : value_str.data.length % 2 = 0 := by
          have : value_str.length % 2 = 0 := by
            by_contra hc
            exact h1 (Or.inl hc)
          exact this
        obtain ⟨value1, hd, _⟩ := decode_loop_even value_str.data value 0 heven
        refine ⟨true, value1, 0 + value_str.data.length / 2, ?_, ?_, ?_⟩
        · have h3 : all_isxdigit value_str.data = true := by simpa using h2
          simp only [h1, h3, if_false, hd, Bool.true_eq_false]
        · simp only [Bool.true_eq_false, false_iff]
          rintro (h | ⟨s, hs2, h⟩)
          · simp at h
          · simp only [Option.some.injEq] at hs2
            subst hs2
            rcases h with h | h | h
            · exact h1 (Or.inl h)
            · exact h2 ((all_isxdigit_false_iff _).mpr h)
            · exact h1 (Or.inr h)
        · intro h
          simp at h

end BtifConfig

namespace BtifConfig

/-! ## The device-cache cleanup (C12, C17, C18) -/

/-- Removing the section looked up by the name of `snode` from `before ++ snode :: rest`
leaves the nodes from `rest` on in place. -/
theorem remove_section_split (before rest : List section_t) (snode : section_t) :
    (config_remove_section { sections := before ++ snode :: rest } snode.name).sections
      = (before ++ [snode]).eraseP (fun s => s.name == snode.name) ++ rest := by
  have h : before ++ snode :: rest = (before ++ [snode]) ++ rest := by simp
  simp only [config_remove_section]
  rw [h]
  exact List.eraseP_append_left (a := snode) (by simp) rest (by simp)

theorem take_front (front rest : List section_t) :
    (front ++ rest).take ((front ++ rest).length - rest.length) = front := by
  simp

/-- One round of the loop that removes a section. -/
theorem devcache_cleanup_loop_remove (string_is_bdaddr : String → Bool) (ADDRS_MAX : Nat)
    (snode : section_t) (rest before : List section_t) (total_addrs : Nat)
    (hbd : string_is_bdaddr snode.name = true)
    (hcond : (decide (total_addrs + 1 > ADDRS_MAX)
      && no_bond_key { sections := before ++ snode :: rest } snode.name) = true) :
    devcache_cleanup_loop string_is_bdaddr ADDRS_MAX (snode :: rest) before total_addrs
      = devcache_cleanup_loop string_is_bdaddr ADDRS_MAX rest
          ((before ++ [snode]).eraseP (fun s => s.name == snode.name)) (total_addrs + 1) := by
  rw [devcache_cleanup_loop]
  simp only [hbd, hcond, if_true]
  rw [remove_section_split, take_front]

/-- One round of the loop that keeps the section. -/
theorem devcache_cleanup_loop_keep (string_is_bdaddr : String → Bool) (ADDRS_MAX : Nat)
    (snode : section_t) (rest before : List section_t) (total_addrs : Nat)
    (hcond : string_is_bdaddr snode.name = true →
      (decide (total_addrs + 1 > ADDRS_MAX)
        && no_bond_key { sections := before ++ snode :: rest } snode.name) = false) :
    devcache_cleanup_loop string_is_bdaddr ADDRS_MAX (snode :: rest) before total_addrs
      = devcache_cleanup_loop string_is_bdaddr ADDRS_MAX rest (before ++ [snode])
          (if string_is_bdaddr snode.name then total_addrs + 1 else total_addrs) := by
  rw [devcache_cleanup_loop]
  by_cases hbd : string_is_bdaddr snode.name = true
  · simp only [hbd, hcond hbd, if_true]
    simp
  · simp only [hbd, if_false]
    simp

/-- When the test on the six keys succeeds, the section looked up by the name has none of
them. -/
theorem no_bond_key_find (config : config_t) (sec : String) (s : section_t)
    (hfind : section_find config sec = some s) (h : no_bond_key config sec = true) :
    has_bond_key s = false := by
  simp only [no_bond_key, config_has_key, hfind, Bool.and_eq_true, Bool.not_eq_true'] at h
  simp [has_bond_key, h]

theorem filter_eraseP_of_find (q p : section_t → Bool) (l : List section_t)
    (h : ∀ a, l.find? p = some a → q a = false) :
    (l.eraseP p).filter q = l.filter q := by
  induction l with
  | nil => simp
  | cons x xs ih =>
    by_cases hp : p x = true
    · have hq := h x (by simp [List.find?, hp])
      simp [List.eraseP_cons, hp, List.filter_cons, hq]
    · have hp2 : p x = false := by simpa using hp
      have ih2 := ih (fun a ha => h a (by simpa [List.find?, hp2] using ha))
      simp [List.eraseP_cons, hp2, List.filter_cons, ih2]

/-- The loop never changes the sublist of the sections that hold a bonding key. -/
theorem devcache_cleanup_loop_bonded (string_is_bdaddr : String → Bool) (ADDRS_MAX : Nat)
    (after before : List section_t) (total_addrs : Nat) :
    (devcache_cleanup_loop string_is_bdaddr ADDRS_MAX after before total_addrs).sections.filter
        has_bond_key
      = (before ++ after).filter has_bond_key := by
  induction after generalizing before total_addrs with
  | nil => simp [devcache_cleanup_loop]
  | cons snode rest ih =>
    by_cases hrem : string_is_bdaddr snode.name = true
      ∧ (decide (total_addrs + 1 > ADDRS_MAX)
          && no_bond_key { sections := before ++ snode :: rest } snode.name) = true
    · rw [devcache_cleanup_loop_remove _ _ _ _ _ _ hrem.1 hrem.2, ih]
      have hsplit := remove_section_split before rest snode
      rw [← hsplit]
      simp only [config_remove_section]
      apply filter_eraseP_of_find
      intro a ha
      have hnb : no_bond_key { sections := before ++ snode :: rest } snode.name = true := by
        have := hrem.2
        simp only [Bool.and_eq_true] at this
        exact this.2
      exact no_bond_key_find _ _ a ha hnb
    · rw [devcache_cleanup_loop_keep, ih]
      · simp
      · intro hbd
        by_contra hc
        exact hrem ⟨hbd, by simpa using hc⟩

/-- C12: for every config, `btif_config_devcache_cleanup` leaves the sections that contain
at least one of the keys `LinkKey`, `LE_KEY_PENC`, `LE_KEY_PID`, `LE_KEY_PCSRK`,
`LE_KEY_LENC`, `LE_KEY_LCSRK` as they were: the list of these sections is the same before
and after, in order and content, so each such section is still in the config, however many
address-named sections there are. -/
theorem C12_devcache_cleanup_keeps_bonded (string_is_bdaddr : String → Bool)
    (config : config_t) :
    (btif_config_devcache_cleanup string_is_bdaddr config).sections.filter has_bond_key
      = config.sections.filter has_bond_key
    ∧ ∀ s ∈ config.sections, has_bond_key s = true →
        s ∈ (btif_config_devcache_cleanup string_is_bdaddr config).sections := by
  have h := devcache_cleanup_loop_bonded string_is_bdaddr 512 config.sections [] 0
  simp only [List.nil_append] at h
  refine ⟨h, ?_⟩
  intro s hs hb
  have hmem : s ∈ config.sections.filter has_bond_key := List.mem_filter.mpr ⟨hs, hb⟩
  rw [← h] at hmem
  exact (List.mem_filter.mp hmem).1

end BtifConfig

namespace BtifConfig

theorem names_before_ne (before rest : List section_t) (snode : section_t)
    (hwf : ((before ++ snode :: rest).map (fun s => s.name)).Nodup) :
    ∀ b ∈ before, b.name ≠ snode.name := by
  intro b hb heq
  simp only [List.map_append, List.map_cons] at hwf
  have hdis := (List.nodup_append.mp hwf).2.2
  exact hdis (List.mem_map.mpr ⟨b, hb, rfl⟩) (by simp [heq])

theorem section_find_self (before rest : List section_t) (snode : section_t)
    (hne : ∀ b ∈ before, b.name ≠ snode.name) :
    section_find { sections := before ++ snode :: rest } snode.name = some snode := by
  simp only [section_find]
  induction before with
  | nil => simp [List.find?]
  | cons b bs ih =>
    have hb : (b.name == snode.name) = false := by
      simpa using hne b (List.mem_cons_self _ _)
    simp only [List.cons_append, List.find?, hb]
    exact ih (fun x hx => hne x (List.mem_cons_of_mem _ hx))

theorem eraseP_self (before : List section_t) (snode : section_t)
    (hne : ∀ b ∈ before, b.name ≠ snode.name) :
    (before ++ [snode]).eraseP (fun s => s.name == snode.name) = before := by
  induction before with
  | nil => simp [List.eraseP]
  | cons b bs ih =>
    have hb : (b.name == snode.name) = false := by
      simpa using hne b (List.mem_cons_self _ _)
    simp only [List.cons_append, List.eraseP_cons, hb, cond_false]
    rw [ih (fun x hx => hne x (List.mem_cons_of_mem _ hx))]

theorem no_bond_key_self (config : config_t) (s : section_t)
    (hfind : section_find config s.name = some s) :
    no_bond_key config s.name = !has_bond_key s := by
  simp only [no_bond_key, config_has_key, hfind, has_bond_key]
  simp only [Bool.not_or]

/-- On a config with one section per name the loop keeps exactly `kept_sections`. -/
theorem devcache_cleanup_loop_eq_kept (string_is_bdaddr : String → Bool) (ADDRS_MAX : Nat)
    (after before : List section_t) (total_addrs : Nat)
    (hwf : ((before ++ after).map (fun s => s.name)).Nodup) :
    devcache_cleanup_loop string_is_bdaddr ADDRS_MAX after before total_addrs
      = { sections := before ++ kept_sections string_is_bdaddr ADDRS_MAX after total_addrs } := by
  induction after generalizing before total_addrs with
  | nil => simp [devcache_cleanup_loop, kept_sections]
  | cons snode rest ih =>
    have hne := names_before_ne before rest snode hwf
    have hfind := section_find_self before rest snode hne
    have hnb := no_bond_key_self _ snode hfind
    have hwf1 : ((before ++ rest).map (fun s => s.name)).Nodup := by
      have hsub : (before ++ rest).Sublist (before ++ snode :: rest) :=
        List.Sublist.append_left (List.sublist_cons_self snode rest) before
      exact hwf.sublist (hsub.map _)
    have hwf2 : (((before ++ [snode]) ++ rest).map (fun s => s.name)).Nodup := by
      simpa using hwf
    by_cases hbd : string_is_bdaddr snode.name = true
    · by_cases hcond : (decide (total_addrs + 1 > ADDRS_MAX) && !has_bond_key snode) = true
      · rw [devcache_cleanup_loop_remove _ _ _ _ _ _ hbd (by rw [hnb]; exact hcond),
          eraseP_self before snode hne, ih before (total_addrs + 1) hwf1]
        simp only [kept_sections, hbd, hcond, if_true]
      · have hcond2 : (decide (total_addrs + 1 > ADDRS_MAX) && !has_bond_key snode) = false := by
          simpa using hcond
        rw [devcache_cleanup_loop_keep _ _ _ _ _ _ (fun _ => by rw [hnb]; exact hcond2),
          ih (before ++ [snode]) _ hwf2]
        simp only [kept_sections, hbd, hcond2, if_true, Bool.false_eq_true, if_false]
        simp
    · rw [devcache_cleanup_loop_keep _ _ _ _ _ _ (fun h => absurd h hbd),
        ih (before ++ [snode]) _ hwf2]
      simp only [kept_sections, hbd, Bool.false_eq_true, if_false]
      simp

/-- On a list of distinct sections `kept_sections` is the filter the claim describes. -/
theorem kept_sections_eq_filter (string_is_bdaddr : String → Bool) (ADDRS_MAX : Nat)
    (after before : List section_t) (hnd : (before ++ after).Nodup) :
    kept_sections string_is_bdaddr ADDRS_MAX after
        (before.filter (fun a => string_is_bdaddr a.name)).length
      = after.filter (fun s =>
          !string_is_bdaddr s.name
            || decide (s ∈ ((before ++ after).filter
                (fun a => string_is_bdaddr a.name)).take ADDRS_MAX)
            || has_bond_key s) := by
  induction after generalizing before with
  | nil => simp [kept_sections]
  | cons s rest ih =>
    have hnd2 : ((before ++ [s]) ++ rest).Nodup := by simpa using hnd
    have ih2 := ih (before ++ [s]) hnd2
    have happ : (before ++ [s]) ++ rest = before ++ s :: rest := by simp
    rw [happ] at ih2
    have hsb : s ∉ before := by
      intro hmem
      have := (List.nodup_append.mp hnd).2.2
      exact this hmem (List.mem_cons_self _ _)
    by_cases hbd : string_is_bdaddr s.name = true
    · have hlen : ((before ++ [s]).filter (fun a => string_is_bdaddr a.name)).length
          = (before.filter (fun a => string_is_bdaddr a.name)).length + 1 := by
        simp [List.filter_append, List.filter_cons, hbd]
      rw [hlen] at ih2
      have hfilt : (before ++ s :: rest).filter (fun a => string_is_bdaddr a.name)
          = before.filter (fun a => string_is_bdaddr a.name)
            ++ s :: rest.filter (fun a => string_is_bdaddr a.name) := by
        simp [List.filter_append, List.filter_cons, hbd]
      by_cases hcond : (decide ((before.filter (fun a => string_is_bdaddr a.name)).length + 1
          > ADDRS_MAX) && !has_bond_key s) = true
      · -- the section is dropped
        simp only [Bool.and_eq_true, decide_eq_true_eq, Bool.not_eq_true'] at hcond
        have hnot : s ∉ ((before ++ s :: rest).filter
            (fun a => string_is_bdaddr a.name)).take ADDRS_MAX := by
          rw [hfilt, List.take_append_of_le_length (by omega)]
          intro hmem
          exact hsb (List.mem_filter.mp (List.mem_of_mem_take hmem)).1
        have hfs : (!string_is_bdaddr s.name
            || decide (s ∈ ((before ++ s :: rest).filter
                (fun a => string_is_bdaddr a.name)).take ADDRS_MAX)
            || has_bond_key s) = false := by
          rw [hbd, decide_eq_false hnot, hcond.2]
          rfl
        rw [kept_sections]
        simp only [hbd, if_true, hcond.1, hcond.2, decide_True, Bool.not_false, Bool.and_self]
        rw [ih2, List.filter_cons]
        simp only [hfs, Bool.false_eq_true, if_false]
      · -- the section is kept
        have hcond2 : (decide ((before.filter (fun a => string_is_bdaddr a.name)).length + 1
            > ADDRS_MAX) && !has_bond_key s) = false := by simpa using hcond
        have hkeep : (decide (s ∈ ((before ++ s :: rest).filter
            (fun a => string_is_bdaddr a.name)).take ADDRS_MAX) || has_bond_key s) = true := by
          by_cases hb : has_bond_key s = true
          · simp [hb]
          · have hle : (before.filter (fun a => string_is_bdaddr a.name)).length + 1
                ≤ ADDRS_MAX := by
              simp only [Bool.and_eq_false_iff, decide_eq_false_iff_not, Bool.not_eq_false']
                at hcond2
              rcases hcond2 with h | h
              · omega
              · exact absurd h hb
            have hmem : s ∈ ((before ++ s :: rest).filter
                (fun a => string_is_bdaddr a.name)).take ADDRS_MAX := by
              rw [hfilt]
              have hsplit : before.filter (fun a => string_is_bdaddr a.name)
                  ++ s :: rest.filter (fun a => string_is_bdaddr a.name)
                  = (before.filter (fun a => string_is_bdaddr a.name) ++ [s])
                    ++ rest.filter (fun a => string_is_bdaddr a.name) := by simp
              have hl : (before.filter (fun a => string_is_bdaddr a.name) ++ [s]).length
                  ≤ ADDRS_MAX := by
                simp only [List.length_append, List.length_singleton]
                exact hle
              rw [hsplit, List.take_append_eq_append_take, List.take_of_length_le hl]
              simp
            rw [decide_eq_true hmem]
            rfl
        rw [kept_sections]
        simp only [hbd, if_true, hcond2, Bool.false_eq_true, if_false]
        rw [ih2, List.filter_cons]
        simp only [hbd, Bool.not_true, Bool.false_or, hkeep, if_true]
    · have hbd2 : string_is_bdaddr s.name = false := by simpa using hbd
      have hlen : ((before ++ [s]).filter (fun a => string_is_bdaddr a.name)).length
          = (before.filter (fun a => string_is_bdaddr a.name)).length := by
        simp [List.filter_append, List.filter_cons, hbd2]
      rw [hlen] at ih2
      rw [kept_sections]
      simp only [hbd2, Bool.false_eq_true, if_false]
      rw [ih2, List.filter_cons]
      simp [hbd2]

end BtifConfig

namespace BtifConfig

theorem kept_sections_sublist (string_is_bdaddr : String → Bool) (ADDRS_MAX : Nat)
    (after : List section_t) (total_addrs : Nat) :
    (kept_sections string_is_bdaddr ADDRS_MAX after total_addrs).Sublist after := by
  induction after generalizing total_addrs with
  | nil => simp [kept_sections]
  | cons s rest ih =>
    rw [kept_sections]
    split_ifs
    · exact (ih _).cons s
    · exact (ih _).cons₂ s
    · exact (ih _).cons₂ s

/-- A list in which every address-named section has a bonding key is kept whole. -/
theorem kept_sections_all_bonded (string_is_bdaddr : String → Bool) (ADDRS_MAX : Nat)
    (l : List section_t) (total_addrs : Nat)
    (h : ∀ s ∈ l, string_is_bdaddr s.name = true → has_bond_key s = true) :
    kept_sections string_is_bdaddr ADDRS_MAX l total_addrs = l := by
  induction l generalizing total_addrs with
  | nil => simp [kept_sections]
  | cons s rest ih =>
    have ihr := fun t => ih t (fun x hx => h x (List.mem_cons_of_mem _ hx))
    rw [kept_sections]
    by_cases hbd : string_is_bdaddr s.name = true
    · have hb := h s (List.mem_cons_self _ _) hbd
      simp only [hbd, hb, if_true, Bool.not_true, Bool.and_false, Bool.false_eq_true, if_false,
        ihr]
    · simp only [hbd, Bool.false_eq_true, if_false, ihr]

/-- Past the bound, every address-named section that is kept has a bonding key. -/
theorem kept_sections_past_bound (string_is_bdaddr : String → Bool) (ADDRS_MAX : Nat)
    (l : List section_t) (total_addrs : Nat) (hpast : ADDRS_MAX ≤ total_addrs) :
    ∀ s ∈ kept_sections string_is_bdaddr ADDRS_MAX l total_addrs,
      string_is_bdaddr s.name = true → has_bond_key s = true := by
  induction l generalizing total_addrs with
  | nil => simp [kept_sections]
  | cons x rest ih =>
    intro s hs hbd
    rw [kept_sections] at hs
    by_cases hx : string_is_bdaddr x.name = true
    · have hgt : total_addrs + 1 > ADDRS_MAX := by omega
      by_cases hb : has_bond_key x = true
      · simp only [hx, hb, if_true, Bool.not_true, Bool.and_false, Bool.false_eq_true,
          if_false, List.mem_cons] at hs
        rcases hs with h | h
        · rw [h]
          exact hb
        · exact ih (total_addrs + 1) (by omega) s h hbd
      · have hb2 : has_bond_key x = false := by simpa using hb
        simp only [hx, hb2, hgt, if_true, decide_True, Bool.not_false, Bool.and_self] at hs
        exact ih (total_addrs + 1) (by omega) s hs hbd
    · simp only [hx, Bool.false_eq_true, if_false, List.mem_cons] at hs
      rcases hs with h | h
      · rw [h] at hbd
        exact absurd hbd hx
      · exact ih total_addrs hpast s h hbd

/-- A second pass over the kept sections keeps them all. -/
theorem kept_sections_idem (string_is_bdaddr : String → Bool) (ADDRS_MAX : Nat)
    (l : List section_t) (total_addrs : Nat) :
    kept_sections string_is_bdaddr ADDRS_MAX
        (kept_sections string_is_bdaddr ADDRS_MAX l total_addrs) total_addrs
      = kept_sections string_is_bdaddr ADDRS_MAX l total_addrs := by
  induction l generalizing total_addrs with
  | nil => simp [kept_sections]
  | cons x rest ih =>
    by_cases hx : string_is_bdaddr x.name = true
    · by_cases hcond : (decide (total_addrs + 1 > ADDRS_MAX) && !has_bond_key x) = true
      · have hstep : kept_sections string_is_bdaddr ADDRS_MAX (x :: rest) total_addrs
            = kept_sections string_is_bdaddr ADDRS_MAX rest (total_addrs + 1) := by
          rw [kept_sections]
          simp only [hx, hcond, if_true]
        rw [hstep]
        apply kept_sections_all_bonded
        apply kept_sections_past_bound
        simp only [Bool.and_eq_true, decide_eq_true_eq] at hcond
        omega
      · have hcond2 : (decide (total_addrs + 1 > ADDRS_MAX) && !has_bond_key x) = false := by
          simpa using hcond
        have hstep : kept_sections string_is_bdaddr ADDRS_MAX (x :: rest) total_addrs
            = x :: kept_sections string_is_bdaddr ADDRS_MAX rest (total_addrs + 1) := by
          rw [kept_sections]
          simp only [hx, hcond2, if_true, Bool.false_eq_true, if_false]
        rw [hstep, kept_sections]
        simp only [hx, hcond2, if_true, Bool.false_eq_true, if_false, ih]
    · have hstep : kept_sections string_is_bdaddr ADDRS_MAX (x :: rest) total_addrs
          = x :: kept_sections string_is_bdaddr ADDRS_MAX rest total_addrs := by
        rw [kept_sections]
        simp only [hx, Bool.false_eq_true, if_false]
      rw [hstep, kept_sections]
      simp only [hx, Bool.false_eq_true, if_false, ih]

/-- On a config with one section per name the cleanup keeps exactly `kept_sections`. -/
theorem devcache_cleanup_eq_kept (string_is_bdaddr : String → Bool) (config : config_t)
    (hwf : config_wf config) :
    btif_config_devcache_cleanup string_is_bdaddr config
      = { sections := kept_sections string_is_bdaddr 512 config.sections 0 } := by
  have h := devcache_cleanup_loop_eq_kept string_is_bdaddr 512 config.sections [] 0
    (by simpa [config_wf] using hwf)
  simpa [btif_config_devcache_cleanup] using h

/-- C17: for every config with one section per name (what the keyed store maintains), the
section list after `btif_config_devcache_cleanup` is the original section list, in the same
order, filtered to the sections that are not named like a Bluetooth address, or are among
the first 512 address-named sections in iteration order, or contain one of the six bonding
keys; hence at most 512 address-named sections without a bonding key remain. -/
theorem C17_devcache_cleanup_is_filter (string_is_bdaddr : String → Bool) (config : config_t)
    (hwf : config_wf config) :
    (btif_config_devcache_cleanup string_is_bdaddr config).sections
      = devcache_cleanup_filter string_is_bdaddr 512 config.sections
    ∧ ((btif_config_devcache_cleanup string_is_bdaddr config).sections.filter
        (fun s => string_is_bdaddr s.name && !has_bond_key s)).length ≤ 512 := by
  have hnd : config.sections.Nodup := List.Nodup.of_map _ hwf
  have hk := kept_sections_eq_filter string_is_bdaddr 512 config.sections [] (by simpa using hnd)
  simp only [List.filter_nil, List.length_nil, List.nil_append] at hk
  have heq : (btif_config_devcache_cleanup string_is_bdaddr config).sections
      = devcache_cleanup_filter string_is_bdaddr 512 config.sections := by
    rw [devcache_cleanup_eq_kept string_is_bdaddr config hwf, hk]
    rfl
  refine ⟨heq, ?_⟩
  rw [heq]
  have hsub : ((devcache_cleanup_filter string_is_bdaddr 512 config.sections).filter
      (fun s => string_is_bdaddr s.name && !has_bond_key s))
      ⊆ (config.sections.filter (fun a => string_is_bdaddr a.name)).take 512 := by
    intro s hs
    obtain ⟨hs1, hs2⟩ := List.mem_filter.mp hs
    obtain ⟨_, hs3⟩ := List.mem_filter.mp hs1
    simp only [Bool.and_eq_true, Bool.not_eq_true'] at hs2
    simp only [hs2.1, hs2.2, Bool.not_true, Bool.false_or, Bool.or_false,
      decide_eq_true_eq] at hs3
    exact hs3
  have hnd2 : ((devcache_cleanup_filter string_is_bdaddr 512 config.sections).filter
      (fun s => string_is_bdaddr s.name && !has_bond_key s)).Nodup :=
    (hnd.sublist (List.filter_sublist _)).sublist (List.filter_sublist _)
  exact le_trans (List.subperm_of_subset hnd2 hsub).length_le (List.length_take_le _ _)

/-- Witness for C17: an adapter section and two device sections with distinct names. -/
theorem C17_devcache_cleanup_is_filter_witness :
    config_wf ⟨[⟨"Adapter", [⟨"Name", "x"⟩]⟩, ⟨"00:11:22:33:44:55", []⟩,
                ⟨"aa:bb:cc:dd:ee:ff", [⟨"LinkKey", "00"⟩]⟩]⟩
    ∧ (btif_config_devcache_cleanup sample_is_bdaddr
          ⟨[⟨"Adapter", [⟨"Name", "x"⟩]⟩, ⟨"00:11:22:33:44:55", []⟩,
            ⟨"aa:bb:cc:dd:ee:ff", [⟨"LinkKey", "00"⟩]⟩]⟩).sections
        = devcache_cleanup_filter sample_is_bdaddr 512
            [⟨"Adapter", [⟨"Name", "x"⟩]⟩, ⟨"00:11:22:33:44:55", []⟩,
             ⟨"aa:bb:cc:dd:ee:ff", [⟨"LinkKey", "00"⟩]⟩]
    ∧ ((btif_config_devcache_cleanup sample_is_bdaddr
          ⟨[⟨"Adapter", [⟨"Name", "x"⟩]⟩, ⟨"00:11:22:33:44:55", []⟩,
            ⟨"aa:bb:cc:dd:ee:ff", [⟨"LinkKey", "00"⟩]⟩]⟩).sections.filter
        (fun s => sample_is_bdaddr s.name && !has_bond_key s)).length ≤ 512 :=
  ⟨by decide,
   C17_devcache_cleanup_is_filter sample_is_bdaddr
     ⟨[⟨"Adapter", [⟨"Name", "x"⟩]⟩, ⟨"00:11:22:33:44:55", []⟩,
       ⟨"aa:bb:cc:dd:ee:ff", [⟨"LinkKey", "00"⟩]⟩]⟩ (by decide)⟩

/-- C18: for every config with one section per name (what the keyed store maintains),
running `btif_config_devcache_cleanup` twice in succession yields the same config as
running it once. -/
theorem C18_devcache_cleanup_idempotent (string_is_bdaddr : String → Bool) (config : config_t)
    (hwf : config_wf config) :
    btif_config_devcache_cleanup string_is_bdaddr
        (btif_config_devcache_cleanup string_is_bdaddr config)
      = btif_config_devcache_cleanup string_is_bdaddr config := by
  rw [devcache_cleanup_eq_kept string_is_bdaddr config hwf]
  have hwf1 : config_wf { sections := kept_sections string_is_bdaddr 512 config.sections 0 } :=
    List.Nodup.sublist ((kept_sections_sublist string_is_bdaddr 512 config.sections 0).map _)
      hwf
  rw [devcache_cleanup_eq_kept string_is_bdaddr _ hwf1]
  simp only [kept_sections_idem]

/-- Witness for C18: the same config as for C17; a second cleanup changes nothing. -/
theorem C18_devcache_cleanup_idempotent_witness :
    config_wf ⟨[⟨"Adapter", [⟨"Name", "x"⟩]⟩, ⟨"00:11:22:33:44:55", []⟩,
                ⟨"aa:bb:cc:dd:ee:ff", [⟨"LinkKey", "00"⟩]⟩]⟩
    ∧ btif_config_devcache_cleanup sample_is_bdaddr
        (btif_config_devcache_cleanup sample_is_bdaddr
          ⟨[⟨"Adapter", [⟨"Name", "x"⟩]⟩, ⟨"00:11:22:33:44:55", []⟩,
            ⟨"aa:bb:cc:dd:ee:ff", [⟨"LinkKey", "00"⟩]⟩]⟩)
      = btif_config_devcache_cleanup sample_is_bdaddr
          ⟨[⟨"Adapter", [⟨"Name", "x"⟩]⟩, ⟨"00:11:22:33:44:55", []⟩,
            ⟨"aa:bb:cc:dd:ee:ff", [⟨"LinkKey", "00"⟩]⟩]⟩ :=
  ⟨by decide,
   C18_devcache_cleanup_idempotent sample_is_bdaddr
     ⟨[⟨"Adapter", [⟨"Name", "x"⟩]⟩, ⟨"00:11:22:33:44:55", []⟩,
       ⟨"aa:bb:cc:dd:ee:ff", [⟨"LinkKey", "00"⟩]⟩]⟩ (by decide)⟩

/-- The loop at work with a bound of 1 instead of 512: of four address-named sections the
first is within the bound, the third has a link key, the second and fourth are removed. -/
theorem devcache_cleanup_loop_example :
    devcache_cleanup_loop sample_is_bdaddr 1
        [⟨"00:11:22:33:44:55", []⟩, ⟨"Adapter", []⟩, ⟨"00:11:22:33:44:56", []⟩,
         ⟨"aa:bb:cc:dd:ee:ff", [⟨"LinkKey", "00"⟩]⟩, ⟨"00:11:22:33:44:57", []⟩] [] 0
      = ⟨[⟨"00:11:22:33:44:55", []⟩, ⟨"Adapter", []⟩,
          ⟨"aa:bb:cc:dd:ee:ff", [⟨"LinkKey", "00"⟩]⟩]⟩ := by
  decide

end BtifConfig

namespace BtifConfig

/-! ## The lock (C13) -/

/-- C13 (evaluated at the failing calls): starting with the lock free, the four section
iteration functions reach into the shared config without taking the lock, and
`btif_config_get_str`, `btif_config_get_bin` and `btif_config_get_bin_length` read the
stored string after they released it; every other public function makes all its accesses
with the lock held. -/
theorem C13_unguarded_config_accesses :
    (btif_config_section_begin_locking ⟨false, []⟩).unguarded = ["config_section_begin"]
    ∧ (btif_config_section_end_locking ⟨false, []⟩).unguarded = ["config_section_end"]
    ∧ (btif_config_section_next_locking ⟨false, []⟩).unguarded = ["config_section_next"]
    ∧ (btif_config_section_name_locking ⟨false, []⟩).unguarded = ["config_section_name"]
    ∧ (btif_config_get_str_locking true ⟨false, []⟩).unguarded = ["stored_value"]
    ∧ (btif_config_get_bin_locking true ⟨false, []⟩).unguarded = ["value_str"]
    ∧ (btif_config_get_bin_length_locking true ⟨false, []⟩).unguarded = ["value_str"]
    ∧ (btif_config_has_section_locking ⟨false, []⟩).unguarded = []
    ∧ (btif_config_exist_locking ⟨false, []⟩).unguarded = []
    ∧ (∀ ret, (btif_config_get_int_locking ret ⟨false, []⟩).unguarded = [])
    ∧ (btif_config_set_int_locking ⟨false, []⟩).unguarded = []
    ∧ (btif_config_set_str_locking ⟨false, []⟩).unguarded = []
    ∧ (btif_config_set_bin_locking ⟨false, []⟩).unguarded = []
    ∧ (btif_config_remove_locking ⟨false, []⟩).unguarded = []
    ∧ (btif_config_save_locking ⟨false, []⟩).unguarded = []
    ∧ (btif_config_flush_locking ⟨false, []⟩).unguarded = []
    ∧ (∀ allocated, (btif_config_clear_locking allocated ⟨false, []⟩).unguarded = []) := by
  refine ⟨by decide, by decide, by decide, by decide, by decide, by decide, by decide,
    by decide, by decide, ?_, by decide, by decide, by decide, by decide, by decide,
    by decide, ?_⟩
  · intro ret
    cases ret <;> decide
  · intro allocated
    cases allocated <;> decide

/-! ## Debounced writes (C14) -/

theorem btif_config_save_calls_frame (times : List Nat) (st : btif_config_state) :
    (btif_config_save_calls times st).config = st.config
    ∧ (btif_config_save_calls times st).file = st.file
    ∧ (btif_config_save_calls times st).backup = st.backup
    ∧ (btif_config_save_calls times st).saved = st.saved := by
  induction times generalizing st with
  | nil => exact ⟨rfl, rfl, rfl, rfl⟩
  | cons t rest ih =>
    have h := ih (btif_config_save t st)
    simpa [btif_config_save_calls, btif_config_save] using h

theorem btif_config_save_calls_append (times : List Nat) (last : Nat)
    (st : btif_config_state) :
    btif_config_save_calls (times ++ [last]) st
      = btif_config_save last (btif_config_save_calls times st) := by
  simp [btif_config_save_calls, List.foldl_append]

/-- C14: `btif_config_save` does not write and does not change the config: after every
sequence of one or more calls (at times `times`, then `last`) with no timer expiry in
between, the config, both files and the list of configs saved are what they were; the one
alarm of the module is pending, set to fire `CONFIG_SETTLE_PERIOD_MS = 3000` ms after the
last call; and its expiry performs exactly one `config_save`, after which no alarm is
pending. -/
theorem C14_save_is_debounced (string_is_bdaddr : String → Bool) (times : List Nat)
    (last : Nat) (st : btif_config_state) :
    (btif_config_save_calls (times ++ [last]) st).config = st.config
    ∧ (btif_config_save_calls (times ++ [last]) st).file = st.file
    ∧ (btif_config_save_calls (times ++ [last]) st).backup = st.backup
    ∧ (btif_config_save_calls (times ++ [last]) st).saved = st.saved
    ∧ (btif_config_save_calls (times ++ [last]) st).alarm_timer.pending
        = some (last + 3000, alarm_callback_t.timer_config_save_cb)
    ∧ (alarm_expire string_is_bdaddr (btif_config_save_calls (times ++ [last]) st)).saved.length
        = st.saved.length + 1
    ∧ (alarm_expire string_is_bdaddr
        (btif_config_save_calls (times ++ [last]) st)).alarm_timer.pending = none := by
  obtain ⟨h1, h2, h3, h4⟩ := btif_config_save_calls_frame (times ++ [last]) st
  have hp : (btif_config_save_calls (times ++ [last]) st).alarm_timer.pending
      = some (last + 3000, alarm_callback_t.timer_config_save_cb) := by
    rw [btif_config_save_calls_append]
    rfl
  refine ⟨h1, h2, h3, h4, hp, ?_, ?_⟩
  · simp only [alarm_expire, hp, timer_config_save_cb, btif_config_write, List.length_append,
      List.length_singleton, h4]
  · simp only [alarm_expire, hp, timer_config_save_cb, btif_config_write]

end BtifConfig

namespace BtaGattc

/-! ## Posted messages (C15, C16) -/

/-- C15: `BTA_GATTC_ServiceSearchRequest` posts exactly one message: the state of the system
manager afterwards is the state before with `bta_sys_sendmsg` applied once, to a search
message whose event is `BTA_GATTC_API_SEARCH_EVT` and whose `layer_specific` is `conn_id`;
the UUID pointer of the message is `NULL` if `p_srvc_uuid` is `NULL`, and otherwise points
at the copy of the UUID inside the message, equal to `*p_srvc_uuid`. -/
theorem C15_ServiceSearchRequest_message {sys : Type} (bta_sys_sendmsg : sys → bta_msg → sys)
    (BTA_GATTC_API_SEARCH_EVT : Nat) (s : sys) (conn_id : Nat) (p_srvc_uuid : Option tBT_UUID) :
    ∃ p_buf : tBTA_GATTC_API_SEARCH,
      BTA_GATTC_ServiceSearchRequest bta_sys_sendmsg BTA_GATTC_API_SEARCH_EVT s conn_id
          p_srvc_uuid
        = bta_sys_sendmsg s (bta_msg.search p_buf)
      ∧ p_buf.hdr.event = BTA_GATTC_API_SEARCH_EVT
      ∧ p_buf.hdr.layer_specific = conn_id
      ∧ (p_srvc_uuid = none → p_buf.p_srvc_uuid = none)
      ∧ (∀ uuid, p_srvc_uuid = some uuid → p_buf.p_srvc_uuid = some uuid) := by
  cases p_srvc_uuid with
  | none =>
    exact ⟨⟨⟨BTA_GATTC_API_SEARCH_EVT, 0, 0, conn_id⟩, none⟩, rfl, rfl, rfl, fun _ => rfl,
      fun _ h => by simp at h⟩
  | some uuid =>
    refine ⟨⟨⟨BTA_GATTC_API_SEARCH_EVT, 0, 0, conn_id⟩, some uuid⟩, rfl, rfl, rfl, ?_, ?_⟩
    · intro h
      simp at h
    · intro u h
      simpa using h

/-- C16: `BTA_GATTC_Disable` on a system manager whose `bta_sys_deregister` makes
`bta_sys_is_register` false for the module: if the GATTC module is not registered the call
leaves the system manager as it was (no message, no change of registration); if it is
registered the call posts exactly one message, with event `BTA_GATTC_API_DISABLE_EVT`, and
then deregisters the module; an immediately repeated call is a no-op. -/
theorem C16_Disable_only_when_enabled {sys : Type} (bta_sys_is_register : sys → Nat → Bool)
    (bta_sys_sendmsg : sys → bta_msg → sys) (bta_sys_deregister : sys → Nat → sys)
    (BTA_ID_GATTC BTA_GATTC_API_DISABLE_EVT : Nat) (fresh fresh2 : BT_HDR) (s : sys)
    (hdereg : ∀ s1 : sys,
      bta_sys_is_register (bta_sys_deregister s1 BTA_ID_GATTC) BTA_ID_GATTC = false) :
    (bta_sys_is_register s BTA_ID_GATTC = false →
        BTA_GATTC_Disable bta_sys_is_register bta_sys_sendmsg bta_sys_deregister BTA_ID_GATTC
          BTA_GATTC_API_DISABLE_EVT fresh s = s)
    ∧ (bta_sys_is_register s BTA_ID_GATTC = true →
        ∃ p_buf : BT_HDR, p_buf.event = BTA_GATTC_API_DISABLE_EVT
          ∧ BTA_GATTC_Disable bta_sys_is_register bta_sys_sendmsg bta_sys_deregister
              BTA_ID_GATTC BTA_GATTC_API_DISABLE_EVT fresh s
            = bta_sys_deregister (bta_sys_sendmsg s (bta_msg.hdr p_buf)) BTA_ID_GATTC)
    ∧ BTA_GATTC_Disable bta_sys_is_register bta_sys_sendmsg bta_sys_deregister BTA_ID_GATTC
        BTA_GATTC_API_DISABLE_EVT fresh2
        (BTA_GATTC_Disable bta_sys_is_register bta_sys_sendmsg bta_sys_deregister BTA_ID_GATTC
          BTA_GATTC_API_DISABLE_EVT fresh s)
      = BTA_GATTC_Disable bta_sys_is_register bta_sys_sendmsg bta_sys_deregister BTA_ID_GATTC
          BTA_GATTC_API_DISABLE_EVT fresh s := by
  refine ⟨?_, ?_, ?_⟩
  · intro h
    simp [BTA_GATTC_Disable, h]
  · intro h
    exact ⟨{ fresh with event := BTA_GATTC_API_DISABLE_EVT }, rfl,
      by simp [BTA_GATTC_Disable, h]⟩
  · by_cases h : bta_sys_is_register s BTA_ID_GATTC = false
    · simp [BTA_GATTC_Disable, h]
    · have h1 : BTA_GATTC_Disable bta_sys_is_register bta_sys_sendmsg bta_sys_deregister
          BTA_ID_GATTC BTA_GATTC_API_DISABLE_EVT fresh s
          = bta_sys_deregister
              (bta_sys_sendmsg s (bta_msg.hdr { fresh with event := BTA_GATTC_API_DISABLE_EVT }))
              BTA_ID_GATTC := by
        simp [BTA_GATTC_Disable, h]
      rw [h1]
      simp [BTA_GATTC_Disable, hdereg]

/-- Witness for C16: module 31 is registered; the first call posts one message with the
disable event and deregisters the module, the second call changes nothing. -/
theorem C16_Disable_only_when_enabled_witness :
    (∀ s1 : sample_sys, sample_is_register (sample_deregister s1 31) 31 = false)
    ∧ BTA_GATTC_Disable sample_is_register sample_sendmsg sample_deregister 31 7
        ⟨99, 98, 97, 96⟩ ⟨[3, 31], []⟩
      = ⟨[3], [bta_msg.hdr ⟨7, 98, 97, 96⟩]⟩
    ∧ BTA_GATTC_Disable sample_is_register sample_sendmsg sample_deregister 31 7
        ⟨1, 2, 3, 4⟩
        (BTA_GATTC_Disable sample_is_register sample_sendmsg sample_deregister 31 7
          ⟨99, 98, 97, 96⟩ ⟨[3, 31], []⟩)
      = BTA_GATTC_Disable sample_is_register sample_sendmsg sample_deregister 31 7
          ⟨99, 98, 97, 96⟩ ⟨[3, 31], []⟩ :=
  ⟨fun s1 => by simp [sample_is_register, sample_deregister],
   by decide,
   (C16_Disable_only_when_enabled sample_is_register sample_sendmsg sample_deregister 31 7
     ⟨99, 98, 97, 96⟩ ⟨1, 2, 3, 4⟩ ⟨[3, 31], []⟩
     (fun s1 => by simp [sample_is_register, sample_deregister])).2.2⟩

end BtaGattc

namespace BtifConfig

/-- The binary lookup at work: the stored string `0aFF` decodes to the bytes 10 and 255 into
a buffer of three bytes; with room for one byte only, or with the stored string `0aFg`, the
call fails and leaves the buffer and the length as they were. -/
theorem btif_config_get_bin_examples :
    btif_config_get_bin (fun (_ : Unit) _ _ _ => some "0aFF") () "Adapter" "Key" [1, 2, 3] 2
      = some (true, [10, 255, 3], 2)
    ∧ btif_config_get_bin (fun (_ : Unit) _ _ _ => some "0aFF") () "Adapter" "Key" [1, 2, 3] 1
      = some (false, [1, 2, 3], 1)
    ∧ btif_config_get_bin (fun (_ : Unit) _ _ _ => some "0aFg") () "Adapter" "Key" [1, 2, 3] 3
      = some (false, [1, 2, 3], 3)
    ∧ btif_config_get_bin (fun (_ : Unit) _ _ (d : Option String) => d) () "Adapter" "Key"
        [1, 2, 3] 3
      = some (false, [1, 2, 3], 3) := by
  decide

/-- Why the cleanup is stated for configs with one section per name: were two sections to
share a name (the store never lets them), the lookup by name would reach the first of them.
With a bound of 1, the second section named `00:11:22:33:44:55` makes the loop remove the
first one, and a second pass then removes the second one too. -/
theorem devcache_cleanup_loop_shared_name :
    devcache_cleanup_loop sample_is_bdaddr 1
        [⟨"00:11:22:33:44:55", []⟩, ⟨"aa:bb:cc:dd:ee:ff", [⟨"LinkKey", "00"⟩]⟩,
         ⟨"00:11:22:33:44:55", []⟩] [] 0
      = ⟨[⟨"aa:bb:cc:dd:ee:ff", [⟨"LinkKey", "00"⟩]⟩, ⟨"00:11:22:33:44:55", []⟩]⟩
    ∧ devcache_cleanup_loop sample_is_bdaddr 1
        [⟨"aa:bb:cc:dd:ee:ff", [⟨"LinkKey", "00"⟩]⟩, ⟨"00:11:22:33:44:55", []⟩] [] 0
      = ⟨[⟨"aa:bb:cc:dd:ee:ff", [⟨"LinkKey", "00"⟩]⟩]⟩ := by
  decide

/-- The debounce at work: three calls of `btif_config_save` at 0, 1000 and 2500 ms leave one
alarm pending for 5500 ms and nothing saved; its expiry saves the config once. -/
theorem btif_config_save_example :
    btif_config_save_calls [0, 1000, 2500]
        ⟨⟨[⟨"Adapter", []⟩]⟩, ⟨none⟩, none, none, []⟩
      = ⟨⟨[⟨"Adapter", []⟩]⟩, ⟨some (5500, alarm_callback_t.timer_config_save_cb)⟩,
          none, none, []⟩
    ∧ alarm_expire sample_is_bdaddr
        (btif_config_save_calls [0, 1000, 2500]
          ⟨⟨[⟨"Adapter", []⟩]⟩, ⟨none⟩, none, none, []⟩)
      = ⟨⟨[⟨"Adapter", []⟩]⟩, ⟨none⟩, some ⟨[⟨"Adapter", []⟩]⟩, none,
          [⟨[⟨"Adapter", []⟩]⟩]⟩ := by
  decide

end BtifConfig

namespace BtaGattc

/-- The service search request at work on the sample system manager: one message is added,
with the event code, the connection id and the UUID. -/
theorem BTA_GATTC_ServiceSearchRequest_example :
    BTA_GATTC_ServiceSearchRequest sample_sendmsg 4 ⟨[31], []⟩ 17 (some ⟨2, [24, 13]⟩)
      = ⟨[31], [bta_msg.search ⟨⟨4, 0, 0, 17⟩, some ⟨2, [24, 13]⟩⟩]⟩
    ∧ BTA_GATTC_ServiceSearchRequest sample_sendmsg 4 ⟨[31], []⟩ 17 none
      = ⟨[31], [bta_msg.search ⟨⟨4, 0, 0, 17⟩, none⟩]⟩ := by
  decide

end BtaGattc
